import Mathlib

/-!
Verification of the extractor core of `DownloaderForReddit`
(`DownloaderForReddit/Extractors/Extractors.py`).

The Python source is shallowly embedded: every extractor method becomes a
Lean function that threads an explicit `ExtractorState` (the three output
lists plus a log and a trace of outbound host calls), and Python exceptions
become an `Except PyExc` result paired with the state at raise time (Python
mutations survive an exception, so the state is returned in both cases).
External capabilities (the HTTP layer, the Imgur API client, the HTML
parser) are passed in as function-valued oracles, mirroring the injected
collaborators described in the specification.
-/

/-! ## String helpers mirroring the Python string operations used -/

/-- Does `pat` occur at the head of `l`?  (Helper for substring search.) -/
def listStarts : List Char → List Char → Bool
  | [], _ => true
  | _ :: _, [] => false
  | a :: as, b :: bs => a == b && listStarts as bs

/-- Does `pat` occur anywhere inside `l`?  (Python `pat in s`.) -/
def containsSub : List Char → List Char → Bool
  | pat, [] => listStarts pat []
  | pat, c :: t => listStarts pat (c :: t) || containsSub pat t

/-- Python `needle in hay` on strings. -/
def strContains (needle hay : String) : Bool := containsSub needle.data hay.data

/-- Index of the first occurrence of `pat` in `l` (Python `s.find(pat)` when ≥ 0). -/
def firstOccIdx : List Char → List Char → Option Nat
  | pat, [] => if listStarts pat [] then some 0 else none
  | pat, c :: t =>
    if listStarts pat (c :: t) then some 0
    else (firstOccIdx pat t).map (· + 1)

/-- Split `l` at the last occurrence of `sep`: Python `s.rsplit(sep, 1)`
returning two pieces, or `none` when `sep` does not occur (in which case the
Python two-variable unpacking raises `ValueError`). -/
def rsplitList (sep : Char) : List Char → Option (List Char × List Char)
  | [] => none
  | c :: rest =>
    match rsplitList sep rest with
    | some (a, b) => some (c :: a, b)
    | none => if c == sep then some ([], rest) else none

/-- Python `a, b = s.rsplit(sep, 1)` (the successful case). -/
def rsplitOnce (sep : Char) (s : String) : Option (String × String) :=
  match rsplitList sep s.data with
  | some (a, b) => some (String.mk a, String.mk b)
  | none => none

/-- ASCII lower-casing of one character (Python `str.lower` on the ASCII
range, which covers every URL the source manipulates). -/
def charLower (c : Char) : Char :=
  if 'A' ≤ c && c ≤ 'Z' then Char.ofNat (c.toNat + 32) else c

/-- Python `s.lower()`. -/
def lowerStr (s : String) : String := String.mk (s.data.map charLower)

/-- Python `s.endswith(suf)`. -/
def strEndsWith (suf s : String) : Bool := suf.data.isSuffixOf s.data

/-- Python `s.endswith((suf1, suf2, ...))`. -/
def endsWithAny (sufs : List String) (s : String) : Bool :=
  sufs.any (fun suf => strEndsWith suf s)

/-! ## Python values, exceptions and JSON -/

/-- The Python exception classes that the embedded code can raise. -/
inductive PyExc where
  | imgurClientError (status : Nat)
  | imgurRateLimitError
  | valueError
  | attributeError
  | typeError
  | indexError
deriving DecidableEq

/-- JSON values, as far as the source inspects them (`response.json()` and
nested `dict.get` lookups). -/
inductive JVal where
  | jnull
  | jstr (s : String)
  | jobj (fields : List (String × JVal))

/-- A Python value stored into a `Content` url slot: the source can store a
string, `None`, or a non-string JSON value there. -/
inductive PyAny where
  | pstr (s : String)
  | pnone
  | pjson (j : JVal)

/-- The Python value passed as the `count` argument of `Content`: the source
passes either a string (`""` or a pre-rendered `' n'`) or an `int`. -/
inductive CountVal where
  | cstr (s : String)
  | cnum (n : Nat)
deriving DecidableEq

/-- First-occurrence lookup in a JSON object's field list (Python `dict.get`). -/
def jlookup (fields : List (String × JVal)) (k : String) : Option JVal :=
  match fields with
  | [] => none
  | (k', v) :: rest => if k' = k then some v else jlookup rest k

/-- Python `x.get(k)` where `x` may be `None` (from a failed `get_json`) or a
non-dict value: both raise `AttributeError`. -/
def pyGetOpt (x : Option JVal) (k : String) : Except PyExc (Option JVal) :=
  match x with
  | none => .error .attributeError
  | some (.jobj fields) => .ok (jlookup fields k)
  | some _ => .error .attributeError

/-- Coerce the result of a `dict.get` chain into the value Python would store
(a `str` stays a string, a missing key yields `None`). -/
def pyOfLookup (x : Option JVal) : PyAny :=
  match x with
  | some (.jstr s) => .pstr s
  | some j => .pjson j
  | none => .pnone

/-! ## Decimal rendering of the ordinal counter

`Core.Content` is not part of this file's source, so the way it combines the
file name with the ordinal is modelled from the spec (see `Content` below).
Python renders the `int` ordinal in decimal; `natRepr` is that rendering,
defined with explicit fuel so that it reduces in the kernel. -/

/-- One decimal digit as a character. -/
def digitChar (d : Nat) : Char :=
  if d = 0 then '0' else if d = 1 then '1' else if d = 2 then '2'
  else if d = 3 then '3' else if d = 4 then '4' else if d = 5 then '5'
  else if d = 6 then '6' else if d = 7 then '7' else if d = 8 then '8' else '9'

/-- Big-endian decimal digits of `n`, with fuel (`fuel > n` suffices). -/
def natDigitsAux : Nat → Nat → List Char
  | 0, _ => []
  | fuel + 1, n =>
    if n < 10 then [digitChar n]
    else natDigitsAux fuel (n / 10) ++ [digitChar (n % 10)]

/-- Decimal rendering of a natural number (Python `str(n)` for `n : int ≥ 0`). -/
def natRepr (n : Nat) : String := String.mk (natDigitsAux (n + 1) n)

/-- Inverse of `digitChar` on decimal digits. -/
def digitVal (c : Char) : Nat :=
  if c = '0' then 0 else if c = '1' then 1 else if c = '2' then 2
  else if c = '3' then 3 else if c = '4' then 4 else if c = '5' then 5
  else if c = '6' then 6 else if c = '7' then 7 else if c = '8' then 8 else 9

/-- Value of a big-endian digit list. -/
def digitsVal (l : List Char) : Nat := l.foldl (fun a c => 10 * a + digitVal c) 0

/-! ## The output-side data model -/

/-- Modelled from the spec: the `Core.Content` class (not part of this file's
source) stores the constructor arguments verbatim; its computed file name is
the given file name followed by the rendered ordinal (`ContentItem`: "computed
file name (with optional ordinal suffix for multi-item posts)"). -/
structure Content where
  url : PyAny
  user : String
  postTitle : String
  subreddit : String
  fileName : String
  count : CountVal
  extension : String
  savePath : String
  subredditSaveMethod : String
  dateCreated : Nat
  displayOnly : Bool

/-- Modelled from the spec: rendering of the `count` argument inside the
computed file name — a string is used verbatim (the base class pre-renders
`' n'` or `''`), an `int` is rendered in decimal. -/
def renderCount : CountVal → String
  | .cstr s => s
  | .cnum n => natRepr n

/-- Modelled from the spec: the computed file name of a content item. -/
def Content.computedFileName (c : Content) : String := c.fileName ++ renderCount c.count

/-- Modelled from the spec: the `Core.Post` record saved for re-attempt (the
same post identifiers the constructor receives). -/
structure Post where
  url : String
  user : String
  postTitle : String
  subreddit : String
  creationDate : Nat
deriving DecidableEq

/-- An element of the Python `extracted_content` list, which the source fills
with both `Content` objects and plain failure strings. -/
inductive ExtractedItem where
  | content (c : Content)
  | message (s : String)

/-- A structured log event (level, event name). -/
structure LogRecord where
  level : String
  event : String
deriving DecidableEq

/-- The per-instance mutable state of an extractor: the three output lists of
the source plus the log sink and a trace of outbound host calls (used to
state "no network call" properties). -/
structure ExtractorState where
  extractedContent : List ExtractedItem
  failedExtractMessages : List String
  failedExtractsToSave : List Post
  logs : List LogRecord
  hostCalls : List String

/-- The empty starting state of a freshly constructed extractor. -/
def st0 : ExtractorState := ⟨[], [], [], [], []⟩

def pushItem (x : ExtractedItem) (st : ExtractorState) : ExtractorState :=
  { st with extractedContent := st.extractedContent ++ [x] }

def pushMsg (s : String) (st : ExtractorState) : ExtractorState :=
  { st with failedExtractMessages := st.failedExtractMessages ++ [s] }

def pushRetry (p : Post) (st : ExtractorState) : ExtractorState :=
  { st with failedExtractsToSave := st.failedExtractsToSave ++ [p] }

def pushLog (level event : String) (st : ExtractorState) : ExtractorState :=
  { st with logs := st.logs ++ [⟨level, event⟩] }

def pushHostCall (u : String) (st : ExtractorState) : ExtractorState :=
  { st with hostCalls := st.hostCalls ++ [u] }

/-! ## The extraction request -/

/-- The constructor arguments shared by every extractor variant. -/
structure Request where
  url : String
  user : String
  postTitle : String
  subreddit : String
  creationDate : Nat
  subredditSaveMethod : String
  nameDownloadsBy : String
  savePath : String
  contentDisplayOnly : Bool

/-- `Post(self.url, self.user, self.post_title, self.subreddit, self.creation_date)`. -/
def mkPost (req : Request) : Post :=
  ⟨req.url, req.user, req.postTitle, req.subreddit, req.creationDate⟩

/-- The naming-policy comparison `self.name_downloads_by == 'Post Title'`. -/
def byTitle (req : Request) : Bool := req.nameDownloadsBy = "Post Title"

/-! ## The base Extractor: get_json / get_text -/

/-- One HTTP response as the spec's HTTP capability exposes it: status code,
content-type header, JSON-decoded body and raw text. -/
structure HttpResponse where
  statusCode : Nat
  contentType : String
  body : JVal
  text : String

/-- The failure string `get_json` appends (note the source's `Tile` typo). -/
def failedJsonMsg (req : Request) (url : String) : String :=
  "Failed to retrieve json data for link " ++ url ++ "\nUser: " ++ req.user ++
    "  Subreddit: " ++ req.subreddit ++ "  Tile: " ++ req.postTitle

/-- The failure string `get_text` appends. -/
def failedTextMsg (req : Request) (url : String) : String :=
  "Failed to retrieve data for link " ++ url ++ "\nUser: " ++ req.user ++
    "  Subreddit: " ++ req.subreddit ++ "  Tile: " ++ req.postTitle

/-- `Extractor.get_json`: one GET; the JSON body is returned only on a 200
status whose content type mentions `json`; otherwise the failure is logged
and a failure string is appended to `extracted_content` (the source appends
it there, not to `failed_extract_messages`). -/
def getJson (http : String → HttpResponse) (req : Request) (url : String)
    (st : ExtractorState) : Option JVal × ExtractorState :=
  let r := http url
  let st1 := pushHostCall url st
  if r.statusCode = 200 && strContains "json" r.contentType then
    (some r.body, st1)
  else
    (none, pushItem (.message (failedJsonMsg req url))
      (pushLog "error" "Failed connection: Bad response" st1))

/-- `Extractor.get_text`, analogous to `get_json` with content type `text`. -/
def getText (http : String → HttpResponse) (req : Request) (url : String)
    (st : ExtractorState) : Option String × ExtractorState :=
  let r := http url
  let st1 := pushHostCall url st
  if r.statusCode = 200 && strContains "text" r.contentType then
    (some r.text, st1)
  else
    (none, pushItem (.message (failedTextMsg req url))
      (pushLog "error" "Failed connection: Bad response" st1))

/-! ## DirectExtractor -/

/-- `DirectExtractor.extract_content`: split the URL at the last `/` and the
tail at the last `.`; either `rsplit` unpacking failure raises `ValueError`
with no guard. -/
def directExtractContent (req : Request) (st : ExtractorState) :
    Except PyExc Unit × ExtractorState :=
  match rsplitOnce '/' req.url with
  | none => (.error .valueError, st)
  | some (_, idWithExt) =>
    match rsplitOnce '.' idWithExt with
    | none => (.error .valueError, st)
    | some (imageId, extension) =>
      let fileName := if byTitle req then req.postTitle else imageId
      (.ok (), pushItem (.content ⟨.pstr req.url, req.user, req.postTitle, req.subreddit,
        fileName, .cstr "", "." ++ extension, req.savePath, req.subredditSaveMethod,
        req.creationDate, req.contentDisplayOnly⟩) st)

/-! ## RedditUploadsExtractor -/

/-- The generic catch-all message used by the Gfycat, Vidble and
reddit-uploads variants (appended to `extracted_content`). -/
def genericLocateMsg (req : Request) : String :=
  "Failed to locate the content at " ++ req.url ++ "\nUser: " ++ req.user ++
    "  Subreddit: " ++ req.subreddit ++ "  Title: " ++ req.postTitle

/-- `RedditUploadsExtractor.extract_content`: append `.jpg` to the URL and
emit one item named by the post title; the body cannot fail, and the bare
`except` would convert any failure into the generic message. -/
def redditUploadsExtractContent (req : Request) (st : ExtractorState) :
    Except PyExc Unit × ExtractorState :=
  let directLink := req.url ++ ".jpg"
  (.ok (), pushItem (.content ⟨.pstr directLink, req.user, req.postTitle, req.subreddit,
    req.postTitle, .cstr "", ".jpg", req.savePath, req.subredditSaveMethod,
    req.creationDate, req.contentDisplayOnly⟩) st)

/-! ## GfycatExtractor -/

/-- `self.api_caller` of the Gfycat variant. -/
def gfycatApiCaller : String := "https://gfycat.com/cajax/get/"

/-- `GfycatExtractor.extract_direct_link`: the item reuses the original URL
and the extension recovered from the URL tail, with no host call. -/
def gfycatExtractDirectLink (req : Request) (st : ExtractorState) :
    Except PyExc Unit × ExtractorState :=
  match rsplitOnce '/' req.url with
  | none => (.error .valueError, st)
  | some (_, idWithExt) =>
    match rsplitOnce '.' idWithExt with
    | none => (.error .valueError, st)
    | some (gfyId, ext) =>
      let fileName := if byTitle req then req.postTitle else gfyId
      (.ok (), pushItem (.content ⟨.pstr req.url, req.user, req.postTitle, req.subreddit,
        fileName, .cstr "", "." ++ ext, req.savePath, req.subredditSaveMethod,
        req.creationDate, req.contentDisplayOnly⟩) st)

/-- `GfycatExtractor.extract_single`: query the JSON endpoint, then read
`gfyItem`/`webmUrl` (a `None` from `get_json` makes the first `.get` raise
`AttributeError`), and emit one item with extension `.webm`. -/
def gfycatExtractSingle (http : String → HttpResponse) (req : Request)
    (st : ExtractorState) : Except PyExc Unit × ExtractorState :=
  match rsplitOnce '/' req.url with
  | none => (.error .valueError, st)
  | some (_, gifId) =>
    let res := getJson http req (gfycatApiCaller ++ gifId) st
    match pyGetOpt res.1 "gfyItem" with
    | .error e => (.error e, res.2)
    | .ok item =>
      match pyGetOpt item "webmUrl" with
      | .error e => (.error e, res.2)
      | .ok gfyUrl =>
        let fileName := if byTitle req then req.postTitle else gifId
        (.ok (), pushItem (.content ⟨pyOfLookup gfyUrl, req.user, req.postTitle,
          req.subreddit, fileName, .cstr "", ".webm", req.savePath,
          req.subredditSaveMethod, req.creationDate, req.contentDisplayOnly⟩) res.2)

/-- The suffix tuple of the Gfycat URL-shape test. -/
def gfycatExts : List String := ["webm", "gif", "gifv"]

/-- The body of `GfycatExtractor.extract_content`'s `try` block. -/
def gfycatTry (http : String → HttpResponse) (req : Request) (st : ExtractorState) :
    Except PyExc Unit × ExtractorState :=
  if endsWithAny gfycatExts (lowerStr req.url) then gfycatExtractDirectLink req st
  else gfycatExtractSingle http req st

/-- `GfycatExtractor.extract_content`: the bare `except` converts any failure
into the generic message (appended to `extracted_content`) plus a log event. -/
def gfycatExtractContent (http : String → HttpResponse) (req : Request)
    (st : ExtractorState) : Except PyExc Unit × ExtractorState :=
  match gfycatTry http req st with
  | (.ok _, st') => (.ok (), st')
  | (.error _, st') =>
    (.ok (), pushLog "error" "Failed extract: Failed to locate content"
      (pushItem (.message (genericLocateMsg req)) st'))

/-! ## VidbleExtractor -/

/-- `self.vidble_base`. -/
def vidbleBase : String := "https://vidble.com"

/-- One parsed `img` element as the HTML-parser capability exposes it: the
optional class-attribute token list and the optional `src` attribute. -/
structure Img where
  classes : Option (List String)
  src : Option String

/-- The class/src test of the Vidble image loops; an empty class list makes
the Python `img_class[0]` raise `IndexError`, handled separately. -/
def imgMatches (im : Img) : Bool :=
  match im.classes with
  | some (c :: _) => c = "img2" && im.src.isSome
  | _ => false

/-- The extension recovered from a scraped image link (`link.rsplit('.', 1)`;
only used after the split is known to succeed). -/
def linkExt (link : String) : String :=
  match rsplitOnce '.' link with
  | some (_, e) => e
  | none => ""

/-- One content item as built inside the Vidble image loops: the rewritten
`<vidble-base><src>` URL, the policy-chosen name and the link's extension. -/
def mkVidbleContent (req : Request) (vidbleId : String) (count : CountVal)
    (link : String) : Content :=
  ⟨.pstr (vidbleBase ++ link), req.user, req.postTitle, req.subreddit,
   (if byTitle req then req.postTitle else vidbleId), count, "." ++ linkExt link,
   req.savePath, req.subredditSaveMethod, req.creationDate, req.contentDisplayOnly⟩

/-- The body of the `for img in imgs` loop of `VidbleExtractor.extract_single`
(no ordinal). -/
def vidbleSingleLoop (req : Request) (vidbleId : String) (imgs : List Img)
    (st : ExtractorState) : Except PyExc Unit × ExtractorState :=
  match imgs with
  | [] => (.ok (), st)
  | im :: rest =>
    match im.classes with
    | none => vidbleSingleLoop req vidbleId rest st
    | some [] => (.error .indexError, st)
    | some (c :: _) =>
      if c = "img2" then
        match im.src with
        | none => vidbleSingleLoop req vidbleId rest st
        | some link =>
          match rsplitOnce '.' link with
          | none => (.error .valueError, st)
          | some _ =>
            vidbleSingleLoop req vidbleId rest
              (pushItem (.content (mkVidbleContent req vidbleId (.cstr "") link)) st)
      else vidbleSingleLoop req vidbleId rest st

/-- The body of the `for img in imgs` loop of `VidbleExtractor.extract_album`
(incrementing ordinal passed as a raw `int`). -/
def vidbleAlbumLoop (req : Request) (vidbleId : String) (imgs : List Img)
    (count : Nat) (st : ExtractorState) : Except PyExc Unit × ExtractorState :=
  match imgs with
  | [] => (.ok (), st)
  | im :: rest =>
    match im.classes with
    | none => vidbleAlbumLoop req vidbleId rest count st
    | some [] => (.error .indexError, st)
    | some (c :: _) =>
      if c = "img2" then
        match im.src with
        | none => vidbleAlbumLoop req vidbleId rest count st
        | some link =>
          match rsplitOnce '.' link with
          | none => (.error .valueError, st)
          | some _ =>
            vidbleAlbumLoop req vidbleId rest (count + 1)
              (pushItem (.content (mkVidbleContent req vidbleId (.cnum count) link)) st)
      else vidbleAlbumLoop req vidbleId rest count st

/-- `vidble_id[:vidble_id.rfind('.')]` applied when the id contains a dot. -/
def stripAfterLastDot (s : String) : String :=
  match rsplitOnce '.' s with
  | some (a, _) => a
  | none => s

/-- `VidbleExtractor.extract_single`: trim the id, fetch the page text, parse
it (`soup` is the HTML-parser oracle; a `None` page makes the parser raise
`TypeError`) and emit one item per matching image. -/
def vidbleExtractSingle (http : String → HttpResponse) (soup : String → List Img)
    (req : Request) (st : ExtractorState) : Except PyExc Unit × ExtractorState :=
  match rsplitOnce '/' req.url with
  | none => (.error .valueError, st)
  | some (_, vidbleId0) =>
    let vidbleId := if strContains "." vidbleId0 then stripAfterLastDot vidbleId0 else vidbleId0
    let res := getText http req req.url st
    match res.1 with
    | none => (.error .typeError, res.2)
    | some t => vidbleSingleLoop req vidbleId (soup t) res.2

/-- `VidbleExtractor.extract_album`: like `extract_single` but with an
ordinal counter starting at 1. -/
def vidbleExtractAlbum (http : String → HttpResponse) (soup : String → List Img)
    (req : Request) (st : ExtractorState) : Except PyExc Unit × ExtractorState :=
  match rsplitOnce '/' req.url with
  | none => (.error .valueError, st)
  | some (_, vidbleId) =>
    let res := getText http req req.url st
    match res.1 with
    | none => (.error .typeError, res.2)
    | some t => vidbleAlbumLoop req vidbleId (soup t) 1 res.2

/-- `VidbleExtractor.extract_direct_link`. -/
def vidbleExtractDirectLink (req : Request) (st : ExtractorState) :
    Except PyExc Unit × ExtractorState :=
  match rsplitOnce '/' req.url with
  | none => (.error .valueError, st)
  | some (_, idWithExt) =>
    match rsplitOnce '.' idWithExt with
    | none => (.error .valueError, st)
    | some (vidbleId, extension) =>
      let fileName := if byTitle req then req.postTitle else vidbleId
      (.ok (), pushItem (.content ⟨.pstr req.url, req.user, req.postTitle, req.subreddit,
        fileName, .cstr "", "." ++ extension, req.savePath, req.subredditSaveMethod,
        req.creationDate, req.contentDisplayOnly⟩) st)

/-- The suffix tuple of the Vidble URL-shape test (note the source's
dot-less `jpeg` and `webm` entries). -/
def vidbleClassifyExts : List String :=
  [".jpg", "jpeg", ".png", ".gif", ".gifv", ".mp4", "webm"]

/-- The body of `VidbleExtractor.extract_content`'s `try` block. -/
def vidbleTry (http : String → HttpResponse) (soup : String → List Img)
    (req : Request) (st : ExtractorState) : Except PyExc Unit × ExtractorState :=
  if strContains "/show/" req.url || strContains "/explore/" req.url then
    vidbleExtractSingle http soup req st
  else if strContains "/album/" req.url then
    vidbleExtractAlbum http soup req st
  else if endsWithAny vidbleClassifyExts (lowerStr req.url) then
    vidbleExtractDirectLink req st
  else
    vidbleExtractAlbum http soup req st

/-- `VidbleExtractor.extract_content`: the bare `except` converts any failure
into the generic message plus a log event. -/
def vidbleExtractContent (http : String → HttpResponse) (soup : String → List Img)
    (req : Request) (st : ExtractorState) : Except PyExc Unit × ExtractorState :=
  match vidbleTry http soup req st with
  | (.ok _, st') => (.ok (), st')
  | (.error _, st') =>
    (.ok (), pushLog "error" "Failed extract: Failed to locate content"
      (pushItem (.message (genericLocateMsg req)) st'))

/-! ## ImgurExtractor -/

/-- One image record of the Imgur API client. -/
structure Picture where
  link : String
  type : String
  animated : Bool
  mp4 : String

/-- The injected Imgur API client: its rate-limit credit counter and its two
lookup calls, each able to raise (`ImgurClientError` carrying a status code,
or any other exception). -/
structure ImgurClient where
  credits : Option Int
  getImage : String → Except PyExc Picture
  getAlbumImages : String → Except PyExc (List Picture)

/-- `self.client.get_image(image_id)`: with no client set up, the attribute
lookup itself raises `AttributeError` before any host call; with a client,
the call is recorded as a host call and its result returned. -/
def clientGetImage (client : Option ImgurClient) (imageId : String)
    (st : ExtractorState) : Except PyExc Picture × ExtractorState :=
  match client with
  | none => (.error .attributeError, st)
  | some c => (c.getImage imageId, pushHostCall ("imgur get_image " ++ imageId) st)

/-- `self.client.get_album_images(album_id)`, analogous to `clientGetImage`. -/
def clientGetAlbumImages (client : Option ImgurClient) (albumId : String)
    (st : ExtractorState) : Except PyExc (List Picture) × ExtractorState :=
  match client with
  | none => (.error .attributeError, st)
  | some c => (c.getAlbumImages albumId, pushHostCall ("imgur get_album_images " ++ albumId) st)

/-- Failure message of `ImgurExtractor.rate_limit_exceeded_error`. -/
def rateLimitMsg (req : Request) : String :=
  "\nFailed: Imgur rate limit exceeded.  This post has been saved and will be downloaded " ++
    "the next time the application is run.  Please make sure you have adequate user " ++
    "credits upon the next run.  User credits can be checked in the help menu\nTitle: " ++
    req.postTitle ++ ",  User: " ++ req.user ++ ",  Subreddit: " ++ req.subreddit

/-- Failure message of `ImgurExtractor.no_credit_error`. -/
def noCreditMsg (req : Request) : String :=
  "\nFailed: You do not have enough imgur credits left to extract this content.  This post " ++
    "will be saved and extraction attempted the next time the program is run.  Please " ++
    "make sure that you have adequate credits upon next run.\nTitle: " ++
    req.postTitle ++ ",  User: " ++ req.user ++ ",  Subreddit: " ++ req.subreddit

/-- Failure message of `ImgurExtractor.over_capacity_error`. -/
def overCapacityMsg (req : Request) : String :=
  "\nFailed: Imgur is currently over capacity.  This post has been saved and extraction " ++
    "will be attempted the next time the program is run.\nTitle: " ++ req.postTitle ++
    ", User: " ++ req.user ++ ",  Subreddit: " ++ req.subreddit

/-- Failure message of `ImgurExtractor.does_not_exist_error`. -/
def doesNotExistMsg (req : Request) : String :=
  "\nFailed: The content does not exist.  This most likely means that the image has been " ++
    "deleted on Imgur, but the post still remains on reddit\nUrl: " ++ req.url ++ ",  User: " ++
    req.user ++ ",  Subreddit: " ++ req.subreddit ++ ",  Title: " ++ req.postTitle

/-- Failure message of `ImgurExtractor.failed_to_locate_error`. -/
def imgurLocateMsg (req : Request) : String :=
  "\nFailed to locate the content at " ++ req.url ++ "\nUser: " ++ req.user ++
    "  Subreddit: " ++ req.subreddit ++ "  Title: " ++ req.postTitle ++ "\n"

/-- Failure message appended at construction when no Imgur client is set up
(the source's adjacent string literals concatenate with no space between
`see` and `the`). -/
def noClientMsg (req : Request) : String :=
  "\nFailed: No valid Imgur client is detected. In order to download content from " ++
    "imgur.com you must have a valid Imugr client. Please seethe settings menu.\nTitle: " ++
    req.postTitle ++ ",  User: " ++ req.user ++ ",  Subreddit: " ++ req.subreddit ++
    ",  URL: " ++ req.url ++ "\n"

/-- `ImgurExtractor.rate_limit_exceeded_error`: one retry record plus one
rate-limit message plus one log event. -/
def rateLimitExceededError (req : Request) (st : ExtractorState) : ExtractorState :=
  pushLog "error" "Failed extract: Rate limit exceeded"
    (pushMsg (rateLimitMsg req) (pushRetry (mkPost req) st))

/-- `ImgurExtractor.no_credit_error`. -/
def noCreditError (req : Request) (st : ExtractorState) : ExtractorState :=
  pushLog "error" "Failed extract: Out of credits"
    (pushMsg (noCreditMsg req) (pushRetry (mkPost req) st))

/-- `ImgurExtractor.over_capacity_error`. -/
def overCapacityError (req : Request) (st : ExtractorState) : ExtractorState :=
  pushLog "error" "Failed extract: Imgur over capacity"
    (pushMsg (overCapacityMsg req) (pushRetry (mkPost req) st))

/-- `ImgurExtractor.does_not_exist_error`: one non-retryable message. -/
def doesNotExistError (req : Request) (st : ExtractorState) : ExtractorState :=
  pushLog "warning" "Failed extract: Content no longer exists"
    (pushMsg (doesNotExistMsg req) st)

/-- `ImgurExtractor.failed_to_locate_error`: one generic message. -/
def failedToLocateError (req : Request) (st : ExtractorState) : ExtractorState :=
  pushLog "error" "Failed extract: Failed to locate content"
    (pushMsg (imgurLocateMsg req) st)

/-- `ImgurExtractor.__init__` after the base construction: resolve the two
credentials; if either is absent, log a warning and append one failure
message (and never build a client); otherwise build the client, where an
`ImgurClientError` from the client constructor is caught and only a 500
records an over-capacity failure.  `mkClient` stands for what
`ImgurClient(id, secret)` does. -/
def imgurInit (req : Request) (clientId clientSecret : Option String)
    (mkClient : Except Nat ImgurClient) (st : ExtractorState) :
    Option ImgurClient × ExtractorState :=
  if clientId.isNone || clientSecret.isNone then
    (none, pushMsg (noClientMsg req)
      (pushLog "warning" "Imgur extract failed: No imgur client setup" st))
  else
    match mkClient with
    | .ok c => (some c, st)
    | .error s => (none, if s = 500 then overCapacityError req st else st)

/-- The extension list of `extract_direct_link`/`extract_direct_mislinked`
(all entries dotted, unlike the classification tuple). -/
def imgurDirectExts : List String :=
  [".jpg", ".jpeg", ".png", ".gif", ".gifv", ".mp4", ".webm"]

/-- The `for ext in [...]` loop heading both direct paths: the local `url`
ends up truncated at the first occurrence of the last matching extension, or
stays unbound (`none`, Python `NameError` on first use) when none matches. -/
def imgurTruncUrl (url : String) : Option String :=
  imgurDirectExts.foldl
    (fun acc ext =>
      match firstOccIdx ext.data url.data with
      | some i => some (String.mk (url.data.take i ++ ext.data))
      | none => acc)
    none

/-- `url.endswith('gifv') or url.endswith('gif')`. -/
def endsGif (url : String) : Bool := strEndsWith "gifv" url || strEndsWith "gif" url

/-- `ImgurExtractor.extract_direct_link`: truncate at the recognized
extension (an unmatched extension raises `NameError`, caught right here and
recorded), split id and extension, resolve animated GIFs through the API
client, and emit one item.  `ValueError` from the splits and client errors
propagate (only `NameError` is caught). -/
def imgurExtractDirectLink (req : Request) (client : Option ImgurClient)
    (st : ExtractorState) : Except PyExc Unit × ExtractorState :=
  match imgurTruncUrl req.url with
  | none =>
    (.ok (), pushMsg ("Failed: Unrecognized file extension: " ++ req.url ++ "\nUser: " ++
      req.user ++ "  Subreddit: " ++ req.subreddit ++ "  Title: " ++ req.postTitle)
      (pushLog "error" "Failed direct extract: Unrecognized extension" st))
  | some url =>
    match rsplitOnce '/' url with
    | none => (.error .valueError, st)
    | some (_, idWithExt) =>
      match rsplitOnce '.' idWithExt with
      | none => (.error .valueError, st)
      | some (imageId, extension) =>
        let fileName := if byTitle req then req.postTitle else imageId
        if endsGif url then
          match clientGetImage client imageId st with
          | (.error e, st') => (.error e, st')
          | (.ok picture, st') =>
            if picture.type = "image/gif" && picture.animated then
              (.ok (), pushItem (.content ⟨.pstr picture.mp4, req.user, req.postTitle,
                req.subreddit, fileName, .cstr "", ".mp4", req.savePath,
                req.subredditSaveMethod, req.creationDate, req.contentDisplayOnly⟩) st')
            else
              (.ok (), pushItem (.content ⟨.pstr url, req.user, req.postTitle,
                req.subreddit, fileName, .cstr "", "." ++ extension, req.savePath,
                req.subredditSaveMethod, req.creationDate, req.contentDisplayOnly⟩) st')
        else
          (.ok (), pushItem (.content ⟨.pstr url, req.user, req.postTitle, req.subreddit,
            fileName, .cstr "", "." ++ extension, req.savePath, req.subredditSaveMethod,
            req.creationDate, req.contentDisplayOnly⟩) st)

/-- `ImgurExtractor.extract_direct_mislinked`: like `extract_direct_link`
but the domain is rewritten to `https://i.imgur.com/` before parsing. -/
def imgurExtractDirectMislinked (req : Request) (client : Option ImgurClient)
    (st : ExtractorState) : Except PyExc Unit × ExtractorState :=
  match imgurTruncUrl req.url with
  | none =>
    (.ok (), pushMsg ("Failed: Unrecognized file extension: " ++ req.url ++ "\nUser: " ++
      req.user ++ "  Subreddit: " ++ req.subreddit ++ "  Title: " ++ req.postTitle)
      (pushLog "error" "Failed direct mislinked extract: Unrecognized extension" st))
  | some url0 =>
    match rsplitOnce '/' url0 with
    | none => (.error .valueError, st)
    | some (_, idWithExt) =>
      let url := "https://i.imgur.com/" ++ idWithExt
      match rsplitOnce '.' idWithExt with
      | none => (.error .valueError, st)
      | some (imageId, extension) =>
        let fileName := if byTitle req then req.postTitle else imageId
        if endsGif url then
          match clientGetImage client imageId st with
          | (.error e, st') => (.error e, st')
          | (.ok picture, st') =>
            if picture.type = "image/gif" && picture.animated then
              (.ok (), pushItem (.content ⟨.pstr picture.mp4, req.user, req.postTitle,
                req.subreddit, fileName, .cstr "", ".mp4", req.savePath,
                req.subredditSaveMethod, req.creationDate, req.contentDisplayOnly⟩) st')
            else
              (.ok (), pushItem (.content ⟨.pstr url, req.user, req.postTitle,
                req.subreddit, fileName, .cstr "", "." ++ extension, req.savePath,
                req.subredditSaveMethod, req.creationDate, req.contentDisplayOnly⟩) st')
        else
          (.ok (), pushItem (.content ⟨.pstr url, req.user, req.postTitle, req.subreddit,
            fileName, .cstr "", "." ++ extension, req.savePath, req.subredditSaveMethod,
            req.creationDate, req.contentDisplayOnly⟩) st)

/-- One album item as built inside the `for pic in ...` loop of
`ImgurExtractor.extract_album`: the base name is `file_name + " "` (post
title or album id plus a trailing space) and the ordinal is the raw counter. -/
def mkImgurAlbumContent (req : Request) (albumId : String) (count : Nat)
    (pic : Picture) : Content :=
  let fileName := if byTitle req then req.postTitle else albumId
  if pic.type = "image/gif" && pic.animated then
    ⟨.pstr pic.mp4, req.user, req.postTitle, req.subreddit, fileName ++ " ", .cnum count,
      ".mp4", req.savePath, req.subredditSaveMethod, req.creationDate, req.contentDisplayOnly⟩
  else
    ⟨.pstr pic.link, req.user, req.postTitle, req.subreddit, fileName ++ " ", .cnum count,
      "." ++ (match rsplitOnce '.' pic.link with | some (_, e) => e | none => ""),
      req.savePath, req.subredditSaveMethod, req.creationDate, req.contentDisplayOnly⟩

/-- The `for pic in self.client.get_album_images(...)` loop of
`ImgurExtractor.extract_album`: a link without a dot raises `ValueError`
(leaving the items appended so far in place). -/
def imgurAlbumLoop (req : Request) (albumId : String) (pics : List Picture)
    (count : Nat) (st : ExtractorState) : Except PyExc Unit × ExtractorState :=
  match pics with
  | [] => (.ok (), st)
  | pic :: rest =>
    match rsplitOnce '.' pic.link with
    | none => (.error .valueError, st)
    | some _ =>
      imgurAlbumLoop req albumId rest (count + 1)
        (pushItem (.content (mkImgurAlbumContent req albumId count pic)) st)

/-- `ImgurExtractor.extract_album`: split the album id off the URL, fetch the
album's images through the client and emit one item per image with an
ordinal counter starting at 1. -/
def imgurExtractAlbum (req : Request) (client : Option ImgurClient)
    (st : ExtractorState) : Except PyExc Unit × ExtractorState :=
  match rsplitOnce '/' req.url with
  | none => (.error .valueError, st)
  | some (_, albumId) =>
    match clientGetAlbumImages client albumId st with
    | (.error e, st') => (.error e, st')
    | (.ok pics, st') => imgurAlbumLoop req albumId pics 1 st'

/-- `ImgurExtractor.extract_single`: split the image id off the URL, fetch
the image record and emit one item (animated GIFs resolve to their MP4). -/
def imgurExtractSingle (req : Request) (client : Option ImgurClient)
    (st : ExtractorState) : Except PyExc Unit × ExtractorState :=
  match rsplitOnce '/' req.url with
  | none => (.error .valueError, st)
  | some (_, imageId) =>
    match clientGetImage client imageId st with
    | (.error e, st') => (.error e, st')
    | (.ok pic, st') =>
      match rsplitOnce '.' pic.link with
      | none => (.error .valueError, st')
      | some (_, extension) =>
        let fileName := if byTitle req then req.postTitle else imageId
        if pic.type = "image/gif" && pic.animated then
          (.ok (), pushItem (.content ⟨.pstr pic.mp4, req.user, req.postTitle, req.subreddit,
            fileName, .cstr "", ".mp4", req.savePath, req.subredditSaveMethod,
            req.creationDate, req.contentDisplayOnly⟩) st')
        else
          (.ok (), pushItem (.content ⟨.pstr pic.link, req.user, req.postTitle, req.subreddit,
            fileName, .cstr "", "." ++ extension, req.savePath, req.subredditSaveMethod,
            req.creationDate, req.contentDisplayOnly⟩) st')

/-- The five classification outcomes of `ImgurExtractor.extract_content`. -/
inductive ImgurPath where
  | direct
  | album
  | galleryTry
  | mislinked
  | single
deriving DecidableEq

/-- The suffix tuple of the Imgur classification test (note the source's
dot-less `jpeg` entry). -/
def imgurClassifyExts : List String :=
  [".jpg", "jpeg", ".png", ".gif", ".gifv", ".mp4", ".webm"]

/-- The classification chain of `ImgurExtractor.extract_content`, checked in
order with the first match winning. -/
def imgurClassify (url : String) : ImgurPath :=
  if strContains "i.imgur" url then .direct
  else if strContains "/a/" url then .album
  else if strContains "/gallery/" url then .galleryTry
  else if endsWithAny imgurClassifyExts (lowerStr url) then .mislinked
  else .single

/-- The body of `ImgurExtractor.extract_content`'s outer `try` block; on the
gallery path, any failure of the album attempt is swallowed silently. -/
def imgurExtractTry (req : Request) (client : Option ImgurClient)
    (st : ExtractorState) : Except PyExc Unit × ExtractorState :=
  match imgurClassify req.url with
  | .direct => imgurExtractDirectLink req client st
  | .album => imgurExtractAlbum req client st
  | .galleryTry =>
    match imgurExtractAlbum req client st with
    | (.ok _, st') => (.ok (), st')
    | (.error _, st') => (.ok (), st')
  | .mislinked => imgurExtractDirectMislinked req client st
  | .single => imgurExtractSingle req client st

/-- The `except` chain of `ImgurExtractor.extract_content`: an
`ImgurClientError` is dispatched on its status code through four successive
`if` tests (reading the client's remaining credits for a 403 — an attribute
access that itself needs the client), an `ImgurClientRateLimitError` records
a rate-limit failure, and any other exception records a generic failure. -/
def imgurHandleExc (req : Request) (client : Option ImgurClient) (e : PyExc)
    (st : ExtractorState) : Except PyExc Unit × ExtractorState :=
  match e with
  | .imgurClientError s =>
    match client with
    | none => (.error .attributeError, st)
    | some c =>
      let st1 := if s = 403 then
          match c.credits with
          | none => failedToLocateError req st
          | some v => if v ≤ 0 then noCreditError req st else failedToLocateError req st
        else st
      let st2 := if s = 429 then rateLimitExceededError req st1 else st1
      let st3 := if s = 500 then overCapacityError req st2 else st2
      let st4 := if s = 404 then doesNotExistError req st3 else st3
      (.ok (), st4)
  | .imgurRateLimitError => (.ok (), rateLimitExceededError req st)
  | _ => (.ok (), failedToLocateError req st)

/-- `ImgurExtractor.extract_content`: the classification body wrapped in the
exception chain. -/
def imgurExtractContent (req : Request) (client : Option ImgurClient)
    (st : ExtractorState) : Except PyExc Unit × ExtractorState :=
  match imgurExtractTry req client st with
  | (.ok _, st') => (.ok (), st')
  | (.error e, st') => imgurHandleExc req client e st'

/-! ## Arithmetic facts about the ordinal rendering -/

theorem digitVal_digitChar {d : Nat} (h : d < 10) : digitVal (digitChar d) = d := by
  interval_cases d <;> decide

theorem digitsVal_append (l : List Char) (c : Char) :
    digitsVal (l ++ [c]) = 10 * digitsVal l + digitVal c := by
  simp [digitsVal, List.foldl_append]

theorem digitsVal_natDigitsAux : ∀ fuel n, n < fuel → digitsVal (natDigitsAux fuel n) = n := by
  intro fuel
  induction fuel with
  | zero => intro n h; omega
  | succ f ih =>
    intro n h
    unfold natDigitsAux
    by_cases h10 : n < 10
    · simp only [h10, if_true]
      simp [digitsVal, digitVal_digitChar h10]
    · simp only [h10, if_false, digitsVal_append]
      rw [ih (n / 10) (by omega), digitVal_digitChar (Nat.mod_lt _ (by norm_num))]
      omega

theorem natRepr_inj : Function.Injective natRepr := by
  intro a b h
  have h2 : natDigitsAux (a + 1) a = natDigitsAux (b + 1) b := congrArg String.data h
  have h3 := congrArg digitsVal h2
  rwa [digitsVal_natDigitsAux _ _ (Nat.lt_succ_self a),
       digitsVal_natDigitsAux _ _ (Nat.lt_succ_self b)] at h3

theorem strAppend_left_cancel {s a b : String} (h : s ++ a = s ++ b) : a = b := by
  have hd : s.data ++ a.data = s.data ++ b.data := congrArg String.data h
  have h2 := List.append_cancel_left hd
  cases a; cases b; exact congrArg String.mk h2

/-! ## Basic state lemmas -/

@[simp] theorem hostCalls_pushItem (x : ExtractedItem) (st : ExtractorState) :
    (pushItem x st).hostCalls = st.hostCalls := rfl

@[simp] theorem hostCalls_pushMsg (s : String) (st : ExtractorState) :
    (pushMsg s st).hostCalls = st.hostCalls := rfl

@[simp] theorem hostCalls_pushRetry (p : Post) (st : ExtractorState) :
    (pushRetry p st).hostCalls = st.hostCalls := rfl

@[simp] theorem hostCalls_pushLog (lv ev : String) (st : ExtractorState) :
    (pushLog lv ev st).hostCalls = st.hostCalls := rfl

@[simp] theorem ec_pushMsg (s : String) (st : ExtractorState) :
    (pushMsg s st).extractedContent = st.extractedContent := rfl

@[simp] theorem ec_pushRetry (p : Post) (st : ExtractorState) :
    (pushRetry p st).extractedContent = st.extractedContent := rfl

@[simp] theorem ec_pushLog (lv ev : String) (st : ExtractorState) :
    (pushLog lv ev st).extractedContent = st.extractedContent := rfl

@[simp] theorem ec_pushItem (x : ExtractedItem) (st : ExtractorState) :
    (pushItem x st).extractedContent = st.extractedContent ++ [x] := rfl

@[simp] theorem msgs_pushItem (x : ExtractedItem) (st : ExtractorState) :
    (pushItem x st).failedExtractMessages = st.failedExtractMessages := rfl

@[simp] theorem msgs_pushLog (lv ev : String) (st : ExtractorState) :
    (pushLog lv ev st).failedExtractMessages = st.failedExtractMessages := rfl

@[simp] theorem msgs_pushRetry (p : Post) (st : ExtractorState) :
    (pushRetry p st).failedExtractMessages = st.failedExtractMessages := rfl

@[simp] theorem msgs_pushMsg (s : String) (st : ExtractorState) :
    (pushMsg s st).failedExtractMessages = st.failedExtractMessages ++ [s] := rfl

@[simp] theorem retries_pushItem (x : ExtractedItem) (st : ExtractorState) :
    (pushItem x st).failedExtractsToSave = st.failedExtractsToSave := rfl

@[simp] theorem retries_pushLog (lv ev : String) (st : ExtractorState) :
    (pushLog lv ev st).failedExtractsToSave = st.failedExtractsToSave := rfl

@[simp] theorem retries_pushMsg (s : String) (st : ExtractorState) :
    (pushMsg s st).failedExtractsToSave = st.failedExtractsToSave := rfl

@[simp] theorem retries_pushRetry (p : Post) (st : ExtractorState) :
    (pushRetry p st).failedExtractsToSave = st.failedExtractsToSave ++ [p] := rfl

@[simp] theorem clientGetImage_none (imageId : String) (st : ExtractorState) :
    clientGetImage none imageId st = (.error .attributeError, st) := rfl

@[simp] theorem clientGetAlbumImages_none (albumId : String) (st : ExtractorState) :
    clientGetAlbumImages none albumId st = (.error .attributeError, st) := rfl

/-! ## With no client set up, no Imgur path can raise an `ImgurClientError` -/

theorem imgurDirectLink_none_ne (req : Request) (st : ExtractorState) (s : Nat) :
    (imgurExtractDirectLink req none st).1 ≠ .error (.imgurClientError s) := by
  unfold imgurExtractDirectLink
  rcases h1 : imgurTruncUrl req.url with _ | url
  · simp
  · simp only [h1]
    rcases h2 : rsplitOnce '/' url with _ | ⟨d, t⟩
    · simp
    · simp only [h2]
      rcases h3 : rsplitOnce '.' t with _ | ⟨i, e⟩
      · simp
      · simp only [h3]
        by_cases h4 : endsGif url <;> simp [h4]

theorem imgurMislinked_none_ne (req : Request) (st : ExtractorState) (s : Nat) :
    (imgurExtractDirectMislinked req none st).1 ≠ .error (.imgurClientError s) := by
  unfold imgurExtractDirectMislinked
  rcases h1 : imgurTruncUrl req.url with _ | url
  · simp
  · simp only [h1]
    rcases h2 : rsplitOnce '/' url with _ | ⟨d, t⟩
    · simp
    · simp only [h2]
      rcases h3 : rsplitOnce '.' t with _ | ⟨i, e⟩
      · simp
      · simp only [h3]
        by_cases h4 : endsGif ("https://i.imgur.com/" ++ t) <;> simp [h4]

theorem imgurSingle_none_ne (req : Request) (st : ExtractorState) (s : Nat) :
    (imgurExtractSingle req none st).1 ≠ .error (.imgurClientError s) := by
  unfold imgurExtractSingle
  rcases h : rsplitOnce '/' req.url with _ | ⟨d, t⟩ <;> simp [h]

theorem imgurAlbum_none_ne (req : Request) (st : ExtractorState) (s : Nat) :
    (imgurExtractAlbum req none st).1 ≠ .error (.imgurClientError s) := by
  unfold imgurExtractAlbum
  rcases h : rsplitOnce '/' req.url with _ | ⟨d, t⟩ <;> simp [h]

theorem imgurTry_none_ne (req : Request) (st : ExtractorState) (s : Nat) :
    (imgurExtractTry req none st).1 ≠ .error (.imgurClientError s) := by
  unfold imgurExtractTry
  split
  · exact imgurDirectLink_none_ne req st s
  · exact imgurAlbum_none_ne req st s
  · split <;> simp
  · exact imgurMislinked_none_ne req st s
  · exact imgurSingle_none_ne req st s

/-! ## The exception chain of Imgur's extract_content -/

theorem imgurHandleExc_some_ok (req : Request) (c : ImgurClient) (e : PyExc)
    (st : ExtractorState) : (imgurHandleExc req (some c) e st).1 = .ok () := by
  cases e <;> simp [imgurHandleExc]

theorem imgurHandleExc_unlisted (req : Request) (c : ImgurClient) (st : ExtractorState)
    (s : Nat) (h403 : s ≠ 403) (h429 : s ≠ 429) (h500 : s ≠ 500) (h404 : s ≠ 404) :
    imgurHandleExc req (some c) (.imgurClientError s) st = (.ok (), st) := by
  simp [imgurHandleExc, h403, h429, h500, h404]

theorem imgurHandleExc_listed_len (req : Request) (c : ImgurClient) (st : ExtractorState)
    (s : Nat) (h : s = 403 ∨ s = 429 ∨ s = 500 ∨ s = 404) :
    ((imgurHandleExc req (some c) (.imgurClientError s) st).2).failedExtractMessages.length
      = st.failedExtractMessages.length + 1 := by
  rcases h with h | h | h | h <;> subst h
  · rcases hc : c.credits with _ | v
    · simp [imgurHandleExc, hc, failedToLocateError]
    · by_cases hv : v ≤ 0 <;>
        simp [imgurHandleExc, hc, hv, noCreditError, failedToLocateError]
  · simp [imgurHandleExc, rateLimitExceededError]
  · simp [imgurHandleExc, overCapacityError]
  · simp [imgurHandleExc, doesNotExistError]

theorem imgurHandleExc_rateLimit (req : Request) (client : Option ImgurClient)
    (st : ExtractorState) :
    imgurHandleExc req client .imgurRateLimitError st = (.ok (), rateLimitExceededError req st) := rfl

theorem imgurHandleExc_other (req : Request) (client : Option ImgurClient)
    (e : PyExc) (st : ExtractorState) (h1 : ∀ s, e ≠ .imgurClientError s)
    (h2 : e ≠ .imgurRateLimitError) :
    imgurHandleExc req client e st = (.ok (), failedToLocateError req st) := by
  cases e
  case imgurClientError s => exact absurd rfl (h1 s)
  case imgurRateLimitError => exact absurd rfl h2
  all_goals rfl

/-! ## Totality of the four guarded entry points -/

theorem imgurExtract_total (req : Request) (client : Option ImgurClient)
    (st : ExtractorState) : (imgurExtractContent req client st).1 = .ok () := by
  unfold imgurExtractContent
  rcases htry : imgurExtractTry req client st with ⟨r, st'⟩
  cases r
  case ok => simp
  case error e =>
    cases e
    case imgurClientError s =>
      cases client
      case none =>
        exact absurd (by rw [htry] : (imgurExtractTry req none st).1 = .error (.imgurClientError s))
          (imgurTry_none_ne req st s)
      case some c => simpa using imgurHandleExc_some_ok req c (.imgurClientError s) st'
    all_goals (cases client <;> simp [imgurHandleExc])

theorem gfycatExtract_total (http : String → HttpResponse) (req : Request)
    (st : ExtractorState) : (gfycatExtractContent http req st).1 = .ok () := by
  unfold gfycatExtractContent
  rcases gfycatTry http req st with ⟨r, st'⟩
  cases r <;> simp

theorem vidbleExtract_total (http : String → HttpResponse) (soup : String → List Img)
    (req : Request) (st : ExtractorState) :
    (vidbleExtractContent http soup req st).1 = .ok () := by
  unfold vidbleExtractContent
  rcases vidbleTry http soup req st with ⟨r, st'⟩
  cases r <;> simp

theorem redditUploadsExtract_total (req : Request) (st : ExtractorState) :
    (redditUploadsExtractContent req st).1 = .ok () := rfl
/-- The matched links of a parsed Vidble page (the images whose first class
token is `img2` and which carry a `src`), in page order. -/
def vidbleLinks (imgs : List Img) : List String :=
  imgs.filterMap (fun im => if imgMatches im then im.src else none)

/-- The items the Imgur album loop appends for `pics`, counting from `count`. -/
def imgurAlbumItems (req : Request) (albumId : String) (count : Nat)
    (pics : List Picture) : List ExtractedItem :=
  (List.enumFrom count pics).map (fun e => .content (mkImgurAlbumContent req albumId e.1 e.2))

/-- The items the Vidble album loop appends for the matched `links`,
counting from `count`. -/
def vidbleAlbumItems (req : Request) (vid : String) (count : Nat)
    (links : List String) : List ExtractedItem :=
  (List.enumFrom count links).map (fun e => .content (mkVidbleContent req vid (.cnum e.1) e.2))

theorem imgurAlbumLoop_ok (req : Request) (albumId : String) :
    ∀ (pics : List Picture) (count : Nat) (st : ExtractorState),
      (∀ p ∈ pics, (rsplitOnce '.' p.link).isSome) →
      imgurAlbumLoop req albumId pics count st =
        (.ok (), { st with
          extractedContent := st.extractedContent ++ imgurAlbumItems req albumId count pics }) := by
  intro pics
  induction pics with
  | nil => intro count st _; simp [imgurAlbumLoop, imgurAlbumItems, List.enumFrom]
  | cons pic rest ih =>
    intro count st h
    have hp := h pic (by simp)
    obtain ⟨⟨a, b⟩, hab⟩ := Option.isSome_iff_exists.mp hp
    rw [imgurAlbumLoop, hab]
    rw [ih (count + 1) _ (fun p hp' => h p (by simp [hp']))]
    simp [pushItem, imgurAlbumItems, List.enumFrom]

theorem vidbleAlbumLoop_ok (req : Request) (vid : String) :
    ∀ (imgs : List Img) (count : Nat) (st : ExtractorState),
      (∀ im ∈ imgs, im.classes ≠ some []) →
      (∀ link ∈ vidbleLinks imgs, (rsplitOnce '.' link).isSome) →
      vidbleAlbumLoop req vid imgs count st =
        (.ok (), { st with
          extractedContent := st.extractedContent ++ vidbleAlbumItems req vid count (vidbleLinks imgs) }) := by
  intro imgs
  induction imgs with
  | nil => intro count st _ _; simp [vidbleAlbumLoop, vidbleLinks, vidbleAlbumItems, List.enumFrom]
  | cons im rest ih =>
    intro count st hcls hlnk
    have hcls' : ∀ i ∈ rest, i.classes ≠ some [] := fun i hi => hcls i (List.mem_cons_of_mem _ hi)
    rcases him : im.classes with _ | ⟨_ | ⟨c, cs⟩⟩
    · have hlinks : vidbleLinks (im :: rest) = vidbleLinks rest := by
        simp [vidbleLinks, List.filterMap_cons, imgMatches, him]
      have hlnk' : ∀ l ∈ vidbleLinks rest, (rsplitOnce '.' l).isSome :=
        fun l hl => hlnk l (hlinks ▸ hl)
      simp only [vidbleAlbumLoop, him]
      rw [ih count st hcls' hlnk', hlinks]
    · exact absurd him (hcls im (List.mem_cons_self _ _))
    · by_cases hc : c = "img2"
      · subst hc
        rcases hsrc : im.src with _ | link
        · have hlinks : vidbleLinks (im :: rest) = vidbleLinks rest := by
            simp [vidbleLinks, List.filterMap_cons, imgMatches, him, hsrc]
          have hlnk' : ∀ l ∈ vidbleLinks rest, (rsplitOnce '.' l).isSome :=
            fun l hl => hlnk l (hlinks ▸ hl)
          simp only [vidbleAlbumLoop, him, if_pos rfl, hsrc]
          rw [ih count st hcls' hlnk', hlinks]
          simp
        · have him2 : imgMatches im = true := by simp [imgMatches, him, hsrc]
          have hlinks : vidbleLinks (im :: rest) = link :: vidbleLinks rest := by
            simp [vidbleLinks, List.filterMap_cons, him2, hsrc]
          obtain ⟨⟨a, b⟩, hab⟩ := Option.isSome_iff_exists.mp
            (hlnk link (by rw [hlinks]; exact List.mem_cons_self _ _))
          have hlnk' : ∀ l ∈ vidbleLinks rest, (rsplitOnce '.' l).isSome :=
            fun l hl => hlnk l (by rw [hlinks]; exact List.mem_cons_of_mem _ hl)
          simp only [vidbleAlbumLoop, him, if_pos rfl, hsrc, hab]
          rw [ih (count + 1) _ hcls' hlnk', hlinks]
          simp [pushItem, vidbleAlbumItems, List.enumFrom]
      · have hlinks : vidbleLinks (im :: rest) = vidbleLinks rest := by
          cases hs : im.src <;> simp [vidbleLinks, List.filterMap_cons, imgMatches, him, hc, hs]
        have hlnk' : ∀ l ∈ vidbleLinks rest, (rsplitOnce '.' l).isSome :=
          fun l hl => hlnk l (hlinks ▸ hl)
        simp only [vidbleAlbumLoop, him, if_neg hc]
        rw [ih count st hcls' hlnk', hlinks]
/-! ## Small observation helpers on emitted items -/

/-- The base file name stored in an extracted item (`none` for messages). -/
def itemBaseName : ExtractedItem → Option String
  | .content c => some c.fileName
  | .message _ => none

/-- The computed file name of an extracted item (`none` for messages). -/
def itemFullName : ExtractedItem → Option String
  | .content c => some c.computedFileName
  | .message _ => none

/-- The ordinal slot of an extracted item (`none` for messages). -/
def itemCount : ExtractedItem → Option CountVal
  | .content c => some c.count
  | .message _ => none

theorem map_fst_enum {α β : Type} (g : Nat → β) (n : Nat) (l : List α) :
    (List.enumFrom n l).map (fun e => g e.1) = (List.range' n l.length).map g := by
  rw [show (fun e : Nat × α => g e.1) = g ∘ Prod.fst from rfl, ← List.map_map,
    List.enumFrom_map_fst]

theorem count_mkImgurAlbumContent (req : Request) (albumId : String) (i : Nat)
    (p : Picture) : (mkImgurAlbumContent req albumId i p).count = .cnum i := by
  unfold mkImgurAlbumContent
  split <;> split <;> rfl

theorem fileName_mkImgurAlbumContent (req : Request) (albumId : String) (i : Nat)
    (p : Picture) : (mkImgurAlbumContent req albumId i p).fileName
      = (if byTitle req then req.postTitle else albumId) ++ " " := by
  unfold mkImgurAlbumContent
  split <;> split <;> rfl

theorem fullName_mkImgurAlbumContent (req : Request) (albumId : String) (i : Nat)
    (p : Picture) : (mkImgurAlbumContent req albumId i p).computedFileName
      = ((if byTitle req then req.postTitle else albumId) ++ " ") ++ natRepr i := by
  unfold Content.computedFileName
  rw [fileName_mkImgurAlbumContent, count_mkImgurAlbumContent]
  rfl

theorem fullName_mkVidbleContent (req : Request) (vid : String) (i : Nat)
    (link : String) : (mkVidbleContent req vid (.cnum i) link).computedFileName
      = (if byTitle req then req.postTitle else vid) ++ natRepr i := rfl

/-- If a separator does not occur in a string, `rsplit` on it has no split. -/
theorem rsplitList_eq_none (sep : Char) :
    ∀ l : List Char, containsSub [sep] l = false → rsplitList sep l = none := by
  intro l
  induction l with
  | nil => intro _; rfl
  | cons c t ih =>
    intro h
    simp only [containsSub, listStarts, Bool.or_eq_false_iff, Bool.and_eq_false_iff] at h
    obtain ⟨h1, h2⟩ := h
    rw [rsplitList, ih h2]
    have hcs : (c == sep) = false := by
      rcases h1 with h1 | h1
      · exact beq_false_of_ne (fun hh => absurd (beq_of_eq hh.symm) (by simp [h1]))
      · cases h1
    simp [hcs]

theorem rsplitOnce_eq_none (sep : Char) (s : String)
    (h : strContains (String.mk [sep]) s = false) : rsplitOnce sep s = none := by
  unfold rsplitOnce
  rw [rsplitList_eq_none sep s.data h]

/-! ## Claim C10 -/

/-- Claim C10: `RedditUploadsExtractor.extract_content` always uses the post
title as the emitted item's file name; the naming-policy field has no effect
on this variant's output. -/
theorem C10_thm (req : Request) (st : ExtractorState) :
    redditUploadsExtractContent req st =
      (.ok (), pushItem (.content ⟨.pstr (req.url ++ ".jpg"), req.user, req.postTitle,
        req.subreddit, req.postTitle, .cstr "", ".jpg", req.savePath,
        req.subredditSaveMethod, req.creationDate, req.contentDisplayOnly⟩) st) ∧
    ∀ nb : String, redditUploadsExtractContent { req with nameDownloadsBy := nb } st
      = (.ok (), pushItem (.content ⟨.pstr (req.url ++ ".jpg"), req.user, req.postTitle,
          req.subreddit, req.postTitle, .cstr "", ".jpg", req.savePath,
          req.subredditSaveMethod, req.creationDate, req.contentDisplayOnly⟩) st) :=
  ⟨rfl, fun _ => rfl⟩

/-! ## Claim C4 -/

/-- Claim C4 (counterexample): on a failing response, `get_json` appends its
failure string to the content-items list (`extracted_content`) and leaves the
failure-messages list untouched, contrary to the claim. -/
def httpC4 : String → HttpResponse := fun _ => ⟨404, "text/html", .jnull, ""⟩

def reqC4 : Request := ⟨"http://x/y", "user", "title", "sub", 0, "m", "Post Title", "p", false⟩

theorem C4_counterexample :
    (getJson httpC4 reqC4 "http://x/y" st0).1 = none ∧
    (getJson httpC4 reqC4 "http://x/y" st0).2.failedExtractMessages = [] ∧
    (getJson httpC4 reqC4 "http://x/y" st0).2.extractedContent
      = [.message (failedJsonMsg reqC4 "http://x/y")] :=
  ⟨rfl, rfl, rfl⟩

/-- Claim C4 (amended): `get_json` returns the parsed body exactly when the
status is 200 and the content type mentions `json`; otherwise it logs one
event and appends one failure string to `extracted_content` (not to
`failed_extract_messages`), returning no value; `get_text` is analogous. -/
theorem C4_thm (http : String → HttpResponse) (req : Request) (url : String)
    (st : ExtractorState) :
    ((http url).statusCode = 200 → strContains "json" (http url).contentType = true →
      getJson http req url st = (some (http url).body, pushHostCall url st)) ∧
    ((http url).statusCode ≠ 200 ∨ strContains "json" (http url).contentType = false →
      getJson http req url st =
        (none, pushItem (.message (failedJsonMsg req url))
          (pushLog "error" "Failed connection: Bad response" (pushHostCall url st)))) ∧
    ((http url).statusCode = 200 → strContains "text" (http url).contentType = true →
      getText http req url st = (some (http url).text, pushHostCall url st)) ∧
    ((http url).statusCode ≠ 200 ∨ strContains "text" (http url).contentType = false →
      getText http req url st =
        (none, pushItem (.message (failedTextMsg req url))
          (pushLog "error" "Failed connection: Bad response" (pushHostCall url st)))) := by
  refine ⟨fun h1 h2 => ?_, fun h => ?_, fun h1 h2 => ?_, fun h => ?_⟩
  · simp [getJson, h1, h2]
  · rcases h with h | h <;> simp [getJson, h]
  · simp [getText, h1, h2]
  · rcases h with h | h <;> simp [getText, h]

theorem C4_witness :
    getJson httpC4 reqC4 "http://x/y" st0 =
      (none, pushItem (.message (failedJsonMsg reqC4 "http://x/y"))
        (pushLog "error" "Failed connection: Bad response" (pushHostCall "http://x/y" st0))) :=
  (C4_thm httpC4 reqC4 "http://x/y" st0).2.1 (Or.inl (by decide))

/-! ## Claim C5 -/

/-- Claim C5 (amended): the Imgur classification is checked in a fixed order
with the first match winning — `i.imgur` direct-host marker first, then
`/a/`, then `/gallery/`, then a recognized extension, then the single-image
fallback; in particular a URL that contains `/a/` and does not contain
`i.imgur` takes the album path (whatever it ends with). -/
theorem C5_thm (url : String) :
    (strContains "i.imgur" url = true → imgurClassify url = .direct) ∧
    (strContains "i.imgur" url = false → strContains "/a/" url = true →
      imgurClassify url = .album) ∧
    (strContains "i.imgur" url = false → strContains "/a/" url = false →
      strContains "/gallery/" url = true → imgurClassify url = .galleryTry) ∧
    (strContains "i.imgur" url = false → strContains "/a/" url = false →
      strContains "/gallery/" url = false →
      endsWithAny imgurClassifyExts (lowerStr url) = true →
      imgurClassify url = .mislinked) ∧
    (strContains "i.imgur" url = false → strContains "/a/" url = false →
      strContains "/gallery/" url = false →
      endsWithAny imgurClassifyExts (lowerStr url) = false →
      imgurClassify url = .single) := by
  refine ⟨fun h1 => ?_, fun h1 h2 => ?_, fun h1 h2 h3 => ?_, fun h1 h2 h3 h4 => ?_,
    fun h1 h2 h3 h4 => ?_⟩ <;> simp [imgurClassify, h1, *]

/-- Claim C5 (counterexample): a URL that contains `/a/` and ends with `.png`
but also contains the `i.imgur` marker is classified as a direct link, not an
album. -/
theorem C5_counterexample :
    strContains "/a/" "https://i.imgur.com/a/x.png" = true ∧
    strEndsWith ".png" "https://i.imgur.com/a/x.png" = true ∧
    imgurClassify "https://i.imgur.com/a/x.png" = .direct ∧
    ImgurPath.direct ≠ ImgurPath.album := by
  refine ⟨by decide, by decide, by decide, by decide⟩

theorem C5_witness :
    strContains "/a/" "https://imgur.com/a/x.png" = true ∧
    strEndsWith ".png" "https://imgur.com/a/x.png" = true ∧
    imgurClassify "https://imgur.com/a/x.png" = .album :=
  ⟨by decide, by decide, (C5_thm "https://imgur.com/a/x.png").2.1 (by decide) (by decide)⟩
/-! ## Claim C8 -/

/-- Claim C8 (amended): for every Gfycat URL whose lower-casing ends with
`webm`/`gif`/`gifv`, provided the URL has a path separator and its tail a
dot, `extract_content` emits exactly one content item with the original URL
and the tail's extension verbatim, touching no host. -/
theorem C8_thm (http : String → HttpResponse) (req : Request) (st : ExtractorState)
    (d t gfyId ext : String)
    (hend : endsWithAny gfycatExts (lowerStr req.url) = true)
    (hsplit : rsplitOnce '/' req.url = some (d, t))
    (hdot : rsplitOnce '.' t = some (gfyId, ext)) :
    gfycatExtractContent http req st =
      (.ok (), pushItem (.content ⟨.pstr req.url, req.user, req.postTitle, req.subreddit,
        (if byTitle req then req.postTitle else gfyId), .cstr "", "." ++ ext, req.savePath,
        req.subredditSaveMethod, req.creationDate, req.contentDisplayOnly⟩) st) := by
  unfold gfycatExtractContent gfycatTry gfycatExtractDirectLink
  simp only [hend, if_true, hsplit, hdot]

def httpW : String → HttpResponse := fun _ => ⟨200, "application/json", .jnull, ""⟩

def reqG8 : Request :=
  ⟨"https://gfycat.com/abc123.gif", "u", "t", "s", 5, "m", "Post Title", "p", false⟩

theorem C8_witness :
    gfycatExtractContent httpW reqG8 st0 =
      (.ok (), pushItem (.content ⟨.pstr reqG8.url, reqG8.user, reqG8.postTitle,
        reqG8.subreddit, (if byTitle reqG8 then reqG8.postTitle else "abc123"), .cstr "",
        "." ++ "gif", reqG8.savePath, reqG8.subredditSaveMethod, reqG8.creationDate,
        reqG8.contentDisplayOnly⟩) st0) :=
  C8_thm httpW reqG8 st0 "https://gfycat.com" "abc123.gif" "abc123" "gif"
    (by decide) (by decide) (by decide)

def reqG8bad : Request :=
  ⟨"https://gfycat.com/somegif", "u", "t", "s", 5, "m", "Post Title", "p", false⟩

/-- Claim C8 (counterexample): `"https://gfycat.com/somegif"` ends with `gif`
(the suffix test uses no dot), but its tail has no dot, so the direct-link
path raises and the bare handler records a failure message: no content item
is emitted for this gif-ending URL. -/
theorem C8_counterexample :
    endsWithAny gfycatExts (lowerStr reqG8bad.url) = true ∧
    (gfycatExtractContent httpW reqG8bad st0).2.extractedContent
      = [.message (genericLocateMsg reqG8bad)] ∧
    (gfycatExtractContent httpW reqG8bad st0).2.hostCalls = [] :=
  ⟨by decide, rfl, rfl⟩

/-! ## Claim C9 -/

/-- Claim C9 (amended): on the Gfycat API path, when `get_json` comes back
empty the caller does not stop — the `.get` chain raises on `None`, the
top-level handler catches it, and a second, generic failure message is
recorded on top of the one `get_json` recorded; no content item is emitted. -/
theorem C9_thm (http : String → HttpResponse) (req : Request) (st : ExtractorState)
    (d gid : String)
    (hend : endsWithAny gfycatExts (lowerStr req.url) = false)
    (hsplit : rsplitOnce '/' req.url = some (d, gid))
    (hfail : (http (gfycatApiCaller ++ gid)).statusCode ≠ 200 ∨
      strContains "json" (http (gfycatApiCaller ++ gid)).contentType = false) :
    gfycatExtractContent http req st =
      (.ok (), pushLog "error" "Failed extract: Failed to locate content"
        (pushItem (.message (genericLocateMsg req))
          (pushItem (.message (failedJsonMsg req (gfycatApiCaller ++ gid)))
            (pushLog "error" "Failed connection: Bad response"
              (pushHostCall (gfycatApiCaller ++ gid) st))))) := by
  have hB : (decide ((http (gfycatApiCaller ++ gid)).statusCode = 200) &&
      strContains "json" (http (gfycatApiCaller ++ gid)).contentType) = false := by
    rcases hfail with h | h <;> simp [h]
  unfold gfycatExtractContent gfycatTry gfycatExtractSingle getJson
  simp only [hend, Bool.false_eq_true, if_false, hsplit, hB, pyGetOpt]

def http9 : String → HttpResponse := fun _ => ⟨500, "text/html", .jnull, ""⟩

def req9 : Request :=
  ⟨"https://gfycat.com/abc", "u", "t", "s", 5, "m", "Post Title", "p", false⟩

/-- Claim C9 (counterexample): with the JSON endpoint answering 500, the
Gfycat API path records two failure messages (the `get_json` one and the
generic one), not exactly one. -/
theorem C9_counterexample :
    (gfycatExtractContent http9 req9 st0).2.extractedContent
      = [.message (failedJsonMsg req9 ("https://gfycat.com/cajax/get/" ++ "abc")),
         .message (genericLocateMsg req9)] :=
  rfl

theorem C9_witness :
    gfycatExtractContent http9 req9 st0 =
      (.ok (), pushLog "error" "Failed extract: Failed to locate content"
        (pushItem (.message (genericLocateMsg req9))
          (pushItem (.message (failedJsonMsg req9 (gfycatApiCaller ++ "abc")))
            (pushLog "error" "Failed connection: Bad response"
              (pushHostCall (gfycatApiCaller ++ "abc") st0))))) :=
  C9_thm http9 req9 st0 "https://gfycat.com" "abc" (by decide) (by decide)
    (Or.inl (by decide))
/-! ## Preservation lemmas for the Imgur failure helpers -/

@[simp] theorem hostCalls_failedToLocateError (req : Request) (st : ExtractorState) :
    (failedToLocateError req st).hostCalls = st.hostCalls := rfl

@[simp] theorem hostCalls_rateLimitExceededError (req : Request) (st : ExtractorState) :
    (rateLimitExceededError req st).hostCalls = st.hostCalls := rfl

@[simp] theorem hostCalls_noCreditError (req : Request) (st : ExtractorState) :
    (noCreditError req st).hostCalls = st.hostCalls := rfl

@[simp] theorem hostCalls_overCapacityError (req : Request) (st : ExtractorState) :
    (overCapacityError req st).hostCalls = st.hostCalls := rfl

@[simp] theorem hostCalls_doesNotExistError (req : Request) (st : ExtractorState) :
    (doesNotExistError req st).hostCalls = st.hostCalls := rfl

@[simp] theorem ec_failedToLocateError (req : Request) (st : ExtractorState) :
    (failedToLocateError req st).extractedContent = st.extractedContent := rfl

@[simp] theorem ec_rateLimitExceededError (req : Request) (st : ExtractorState) :
    (rateLimitExceededError req st).extractedContent = st.extractedContent := rfl

@[simp] theorem ec_noCreditError (req : Request) (st : ExtractorState) :
    (noCreditError req st).extractedContent = st.extractedContent := rfl

@[simp] theorem ec_overCapacityError (req : Request) (st : ExtractorState) :
    (overCapacityError req st).extractedContent = st.extractedContent := rfl

@[simp] theorem ec_doesNotExistError (req : Request) (st : ExtractorState) :
    (doesNotExistError req st).extractedContent = st.extractedContent := rfl

theorem hostCalls_imgurHandleExc (req : Request) (client : Option ImgurClient)
    (e : PyExc) (st : ExtractorState) :
    (imgurHandleExc req client e st).2.hostCalls = st.hostCalls := by
  cases e
  case imgurClientError s =>
    cases client
    · rfl
    case some c =>
      cases hc : c.credits with
      | none => simp only [imgurHandleExc, hc]; split_ifs <;> simp
      | some v =>
        by_cases hv : v ≤ 0 <;> (simp only [imgurHandleExc, hc, hv]; split_ifs <;> simp)
  all_goals simp [imgurHandleExc]

theorem ec_imgurHandleExc (req : Request) (client : Option ImgurClient)
    (e : PyExc) (st : ExtractorState) :
    (imgurHandleExc req client e st).2.extractedContent = st.extractedContent := by
  cases e
  case imgurClientError s =>
    cases client
    · rfl
    case some c =>
      cases hc : c.credits with
      | none => simp only [imgurHandleExc, hc]; split_ifs <;> simp
      | some v =>
        by_cases hv : v ≤ 0 <;> (simp only [imgurHandleExc, hc, hv]; split_ifs <;> simp)
  all_goals simp [imgurHandleExc]

/-! ## With no client, the Imgur paths make no host call and (on the
client-requiring paths) emit nothing -/

theorem hostCalls_imgurDirect_none (req : Request) (st : ExtractorState) :
    (imgurExtractDirectLink req none st).2.hostCalls = st.hostCalls := by
  unfold imgurExtractDirectLink
  rcases h1 : imgurTruncUrl req.url with _ | url
  · simp
  · simp only [h1]
    rcases h2 : rsplitOnce '/' url with _ | ⟨d, t⟩
    · simp
    · simp only [h2]
      rcases h3 : rsplitOnce '.' t with _ | ⟨i, e⟩
      · simp
      · simp only [h3]
        by_cases h4 : endsGif url <;> simp [h4]

theorem hostCalls_imgurMislinked_none (req : Request) (st : ExtractorState) :
    (imgurExtractDirectMislinked req none st).2.hostCalls = st.hostCalls := by
  unfold imgurExtractDirectMislinked
  rcases h1 : imgurTruncUrl req.url with _ | url
  · simp
  · simp only [h1]
    rcases h2 : rsplitOnce '/' url with _ | ⟨d, t⟩
    · simp
    · simp only [h2]
      rcases h3 : rsplitOnce '.' t with _ | ⟨i, e⟩
      · simp
      · simp only [h3]
        by_cases h4 : endsGif ("https://i.imgur.com/" ++ t) <;> simp [h4]

theorem hostCalls_imgurSingle_none (req : Request) (st : ExtractorState) :
    (imgurExtractSingle req none st).2.hostCalls = st.hostCalls := by
  unfold imgurExtractSingle
  rcases h : rsplitOnce '/' req.url with _ | ⟨d, t⟩ <;> simp [h]

theorem hostCalls_imgurAlbum_none (req : Request) (st : ExtractorState) :
    (imgurExtractAlbum req none st).2.hostCalls = st.hostCalls := by
  unfold imgurExtractAlbum
  rcases h : rsplitOnce '/' req.url with _ | ⟨d, t⟩ <;> simp [h]

theorem ec_imgurSingle_none (req : Request) (st : ExtractorState) :
    (imgurExtractSingle req none st).2.extractedContent = st.extractedContent := by
  unfold imgurExtractSingle
  rcases h : rsplitOnce '/' req.url with _ | ⟨d, t⟩ <;> simp [h]

theorem ec_imgurAlbum_none (req : Request) (st : ExtractorState) :
    (imgurExtractAlbum req none st).2.extractedContent = st.extractedContent := by
  unfold imgurExtractAlbum
  rcases h : rsplitOnce '/' req.url with _ | ⟨d, t⟩ <;> simp [h]

theorem hostCalls_imgurTry_none (req : Request) (st : ExtractorState) :
    (imgurExtractTry req none st).2.hostCalls = st.hostCalls := by
  unfold imgurExtractTry
  cases h : imgurClassify req.url
  case direct => exact hostCalls_imgurDirect_none req st
  case album => exact hostCalls_imgurAlbum_none req st
  case galleryTry =>
    rcases halb : imgurExtractAlbum req none st with ⟨r, st'⟩
    have hst' : st'.hostCalls = st.hostCalls := by
      have h2 := hostCalls_imgurAlbum_none req st
      rw [halb] at h2
      exact h2
    cases r <;> simpa using hst'
  case mislinked => exact hostCalls_imgurMislinked_none req st
  case single => exact hostCalls_imgurSingle_none req st

theorem hostCalls_imgurExtract_none (req : Request) (st : ExtractorState) :
    (imgurExtractContent req none st).2.hostCalls = st.hostCalls := by
  unfold imgurExtractContent
  rcases htry : imgurExtractTry req none st with ⟨r, st'⟩
  have hst' : st'.hostCalls = st.hostCalls := by
    have h2 := hostCalls_imgurTry_none req st
    rw [htry] at h2
    exact h2
  cases r
  case ok => simpa using hst'
  case error e =>
    simp only []
    rw [hostCalls_imgurHandleExc req none e st', hst']

/-! ## Claim C2 -/

/-- Claim C2 (amended): the Imgur status-code table holds exactly as stated
for statuses 403 (three credit sub-cases), 429, 500 and 404, for the
rate-limit error type, and for every exception that is not an Imgur client
error; but an Imgur client error with any other status code falls through
all four `if` tests and produces zero recorded outcomes. -/
theorem C2_thm (req : Request) (c : ImgurClient) (st : ExtractorState) :
    (c.credits = none →
      imgurHandleExc req (some c) (.imgurClientError 403) st
        = (.ok (), failedToLocateError req st)) ∧
    (∀ v : Int, c.credits = some v → v ≤ 0 →
      imgurHandleExc req (some c) (.imgurClientError 403) st
        = (.ok (), noCreditError req st)) ∧
    (∀ v : Int, c.credits = some v → 0 < v →
      imgurHandleExc req (some c) (.imgurClientError 403) st
        = (.ok (), failedToLocateError req st)) ∧
    (imgurHandleExc req (some c) (.imgurClientError 429) st
      = (.ok (), rateLimitExceededError req st)) ∧
    (imgurHandleExc req (some c) (.imgurClientError 500) st
      = (.ok (), overCapacityError req st)) ∧
    (imgurHandleExc req (some c) (.imgurClientError 404) st
      = (.ok (), doesNotExistError req st)) ∧
    (imgurHandleExc req (some c) .imgurRateLimitError st
      = (.ok (), rateLimitExceededError req st)) ∧
    (∀ e : PyExc, (∀ s, e ≠ .imgurClientError s) → e ≠ .imgurRateLimitError →
      imgurHandleExc req (some c) e st = (.ok (), failedToLocateError req st)) ∧
    (∀ s : Nat, s ≠ 403 → s ≠ 429 → s ≠ 500 → s ≠ 404 →
      imgurHandleExc req (some c) (.imgurClientError s) st = (.ok (), st)) := by
  refine ⟨fun hc => ?_, fun v hc hv => ?_, fun v hc hv => ?_, ?_, ?_, ?_, rfl,
    fun e h1 h2 => imgurHandleExc_other req (some c) e st h1 h2,
    fun s h1 h2 h3 h4 => imgurHandleExc_unlisted req c st s h1 h2 h3 h4⟩
  · simp [imgurHandleExc, hc]
  · simp [imgurHandleExc, hc, hv]
  · have hv' : ¬(v ≤ 0) := not_le.mpr hv
    simp [imgurHandleExc, hc, hv']
  · simp [imgurHandleExc]
  · simp [imgurHandleExc]
  · simp [imgurHandleExc]

def clientC2 : ImgurClient :=
  ⟨some 10, fun _ => .error (.imgurClientError 400), fun _ => .error (.imgurClientError 400)⟩

def reqC2 : Request :=
  ⟨"https://imgur.com/abc", "u", "t", "s", 0, "m", "Post Title", "p", false⟩

/-- Claim C2 (counterexample): an `ImgurClientError` with status 400 reaches
`extract_content`'s handler and produces zero recorded outcomes — no failure
message, no retry record — contradicting the claimed exhaustiveness. -/
theorem C2_counterexample :
    clientC2.getImage "abc" = .error (.imgurClientError 400) ∧
    (imgurExtractContent reqC2 (some clientC2) st0).1 = .ok () ∧
    (imgurExtractContent reqC2 (some clientC2) st0).2.failedExtractMessages = [] ∧
    (imgurExtractContent reqC2 (some clientC2) st0).2.failedExtractsToSave = [] ∧
    (imgurExtractContent reqC2 (some clientC2) st0).2.extractedContent = [] :=
  ⟨rfl, rfl, rfl, rfl, rfl⟩

def clientW2 : ImgurClient :=
  ⟨none, fun _ => .error .valueError, fun _ => .error .valueError⟩

theorem C2_witness :
    imgurHandleExc reqC2 (some clientW2) (.imgurClientError 403) st0
      = (.ok (), failedToLocateError reqC2 st0) ∧
    imgurHandleExc reqC2 (some clientC2) (.imgurClientError 429) st0
      = (.ok (), rateLimitExceededError reqC2 st0) ∧
    imgurHandleExc reqC2 (some clientC2) (.imgurClientError 400) st0 = (.ok (), st0) :=
  ⟨(C2_thm reqC2 clientW2 st0).1 rfl, (C2_thm reqC2 clientC2 st0).2.2.2.1,
    (C2_thm reqC2 clientC2 st0).2.2.2.2.2.2.2.2 400 (by decide) (by decide) (by decide)
      (by decide)⟩

/-! ## Claim C3 -/

/-- Claim C3 (amended): a missing client id or secret makes construction log
one warning and append exactly one failure message and leaves no client; a
later `extract_content` call then makes no host call and raises nothing, and
the client-requiring classifications (album, gallery, single) emit no
content item — but the claim's "performs no extraction at all" fails on the
direct/mislinked paths, which can still emit a content item (see the
counterexample). -/
theorem C3_thm :
    (∀ (req : Request) (cs : Option String) (mk : Except Nat ImgurClient)
        (st : ExtractorState),
      imgurInit req none cs mk st =
        (none, pushMsg (noClientMsg req)
          (pushLog "warning" "Imgur extract failed: No imgur client setup" st))) ∧
    (∀ (req : Request) (cid : Option String) (mk : Except Nat ImgurClient)
        (st : ExtractorState),
      imgurInit req cid none mk st =
        (none, pushMsg (noClientMsg req)
          (pushLog "warning" "Imgur extract failed: No imgur client setup" st))) ∧
    (∀ (req : Request) (st : ExtractorState),
      (imgurExtractContent req none st).2.hostCalls = st.hostCalls ∧
      (imgurExtractContent req none st).1 = Except.ok ()) ∧
    (∀ (req : Request) (st : ExtractorState),
      imgurClassify req.url = .album ∨ imgurClassify req.url = .galleryTry ∨
        imgurClassify req.url = .single →
      (imgurExtractContent req none st).2.extractedContent = st.extractedContent) := by
  refine ⟨fun req cs mk st => by simp [imgurInit],
    fun req cid mk st => by cases cid <;> simp [imgurInit],
    fun req st => ⟨hostCalls_imgurExtract_none req st, imgurExtract_total req none st⟩,
    fun req st h => ?_⟩
  unfold imgurExtractContent imgurExtractTry
  rcases h with h | h | h <;> rw [h]
  · rcases halb : imgurExtractAlbum req none st with ⟨r, st'⟩
    have hst' : st'.extractedContent = st.extractedContent := by
      have h2 := ec_imgurAlbum_none req st
      rw [halb] at h2
      exact h2
    cases r
    case ok => simpa using hst'
    case error e =>
      simp only []
      rw [ec_imgurHandleExc req none e st', hst']
  · rcases halb : imgurExtractAlbum req none st with ⟨r, st'⟩
    have hst' : st'.extractedContent = st.extractedContent := by
      have h2 := ec_imgurAlbum_none req st
      rw [halb] at h2
      exact h2
    cases r <;> simpa using hst'
  · rcases hsing : imgurExtractSingle req none st with ⟨r, st'⟩
    have hst' : st'.extractedContent = st.extractedContent := by
      have h2 := ec_imgurSingle_none req st
      rw [hsing] at h2
      exact h2
    cases r
    case ok => simpa using hst'
    case error e =>
      simp only []
      rw [ec_imgurHandleExc req none e st', hst']

def reqC3 : Request :=
  ⟨"https://i.imgur.com/abc.jpg", "u", "t", "s", 0, "m", "Post Title", "p", false⟩

/-- Claim C3 (counterexample): with both credentials missing, construction
records its one failure message, but the subsequent `extract_content` call on
an `i.imgur` URL with a non-gif extension still appends a content item — the
claimed "performs no extraction at all" does not hold. -/
theorem C3_counterexample :
    (imgurInit reqC3 none (some "secret") (.error 0) st0).1 = none ∧
    (imgurInit reqC3 none (some "secret") (.error 0) st0).2.failedExtractMessages
      = [noClientMsg reqC3] ∧
    (imgurExtractContent reqC3 none
        ((imgurInit reqC3 none (some "secret") (.error 0) st0).2)).2.extractedContent
      = [.content ⟨.pstr "https://i.imgur.com/abc.jpg", "u", "t", "s", "t", .cstr "",
          ".jpg", "p", "m", 0, false⟩] :=
  ⟨rfl, rfl, rfl⟩

theorem C3_witness :
    imgurInit reqC3 none (some "secret") (.error 0) st0 =
      (none, pushMsg (noClientMsg reqC3)
        (pushLog "warning" "Imgur extract failed: No imgur client setup" st0)) ∧
    (imgurExtractContent reqC2 none st0).2.hostCalls = st0.hostCalls ∧
    (imgurExtractContent reqC2 none st0).2.extractedContent = st0.extractedContent :=
  ⟨C3_thm.1 reqC3 (some "secret") (.error 0) st0,
    (C3_thm.2.2.1 reqC2 st0).1,
    C3_thm.2.2.2 reqC2 st0 (Or.inr (Or.inr (by decide)))⟩
/-! ## Claim C6 -/

/-- Mapping an index-only function over an enumeration is duplicate-free when
the function is injective. -/
theorem nodup_enum_map {alpha : Type} (l : List alpha) (n : Nat) (g : Nat -> Option String)
    (hg : Function.Injective g) :
    ((List.enumFrom n l).map (fun e => g e.1)).Nodup := by
  rw [map_fst_enum g n l]
  exact List.Nodup.map hg (List.nodup_range' n l.length)

/-- Claim C6: on both album paths (Imgur and Vidble), N discovered images
(with well-formed dotted links) yield exactly N content items, in discovery
order, with ordinals 1..N, and the computed file names are pairwise
distinct. -/
theorem C6_thm :
    (∀ (req : Request) (c : ImgurClient) (st : ExtractorState) (d albumId : String)
        (pics : List Picture),
      rsplitOnce '/' req.url = some (d, albumId) →
      c.getAlbumImages albumId = .ok pics →
      (∀ p ∈ pics, (rsplitOnce '.' p.link).isSome = true) →
      imgurExtractAlbum req (some c) st =
        (.ok (), { pushHostCall ("imgur get_album_images " ++ albumId) st with
          extractedContent := st.extractedContent ++ imgurAlbumItems req albumId 1 pics }) ∧
      (imgurAlbumItems req albumId 1 pics).length = pics.length ∧
      (imgurAlbumItems req albumId 1 pics).map itemCount
        = (List.range' 1 pics.length).map (fun i => some (.cnum i)) ∧
      ((imgurAlbumItems req albumId 1 pics).map itemFullName).Nodup) ∧
    (∀ (http : String → HttpResponse) (soup : String → List Img) (req : Request)
        (st : ExtractorState) (d vid : String),
      rsplitOnce '/' req.url = some (d, vid) →
      (http req.url).statusCode = 200 →
      strContains "text" (http req.url).contentType = true →
      (∀ im ∈ soup (http req.url).text, im.classes ≠ some []) →
      (∀ link ∈ vidbleLinks (soup (http req.url).text),
        (rsplitOnce '.' link).isSome = true) →
      vidbleExtractAlbum http soup req st =
        (.ok (), { pushHostCall req.url st with
          extractedContent := st.extractedContent ++
            vidbleAlbumItems req vid 1 (vidbleLinks (soup (http req.url).text)) }) ∧
      (vidbleAlbumItems req vid 1 (vidbleLinks (soup (http req.url).text))).length
        = (vidbleLinks (soup (http req.url).text)).length ∧
      (vidbleAlbumItems req vid 1 (vidbleLinks (soup (http req.url).text))).map itemCount
        = (List.range' 1 (vidbleLinks (soup (http req.url).text)).length).map
            (fun i => some (.cnum i)) ∧
      ((vidbleAlbumItems req vid 1 (vidbleLinks (soup (http req.url).text))).map
        itemFullName).Nodup) := by
  constructor
  · intro req c st d albumId pics hsplit hok hdots
    refine ⟨?_, ?_, ?_, ?_⟩
    · unfold imgurExtractAlbum
      simp only [hsplit, clientGetAlbumImages, hok]
      rw [imgurAlbumLoop_ok req albumId pics 1 _ hdots]
      simp [pushHostCall]
    · simp [imgurAlbumItems]
    · simp only [imgurAlbumItems, List.map_map]
      rw [show (itemCount ∘ fun e : Nat × Picture =>
          ExtractedItem.content (mkImgurAlbumContent req albumId e.1 e.2))
          = (fun e : Nat × Picture => some (CountVal.cnum e.1)) from ?_]
      · exact map_fst_enum (fun i => some (CountVal.cnum i)) 1 pics
      · funext e
        simp [itemCount, count_mkImgurAlbumContent]
    · simp only [imgurAlbumItems, List.map_map]
      rw [show (itemFullName ∘ fun e : Nat × Picture =>
          ExtractedItem.content (mkImgurAlbumContent req albumId e.1 e.2))
          = (fun e : Nat × Picture =>
              some (((if byTitle req then req.postTitle else albumId) ++ " ")
                ++ natRepr e.1)) from ?_]
      · exact nodup_enum_map pics 1
          (fun i => some (((if byTitle req then req.postTitle else albumId) ++ " ") ++ natRepr i))
          (fun a b hab => natRepr_inj (strAppend_left_cancel (Option.some.inj hab)))
      · funext e
        simp [itemFullName, fullName_mkImgurAlbumContent]
  · intro http soup req st d vid hsplit h200 hct hcls hlnk
    have hB : (decide ((http req.url).statusCode = 200) &&
        strContains "text" (http req.url).contentType) = true := by
      simp [h200, hct]
    have hmain : vidbleExtractAlbum http soup req st =
        (.ok (), { pushHostCall req.url st with
          extractedContent := st.extractedContent ++
            vidbleAlbumItems req vid 1 (vidbleLinks (soup (http req.url).text)) }) := by
      unfold vidbleExtractAlbum getText
      simp only [hsplit, hB, if_true]
      rw [vidbleAlbumLoop_ok req vid (soup (http req.url).text) 1 _ hcls hlnk]
      simp [pushHostCall]
    refine ⟨hmain, ?_, ?_, ?_⟩
    · simp [vidbleAlbumItems]
    · simp only [vidbleAlbumItems, List.map_map]
      rw [show (itemCount ∘ fun e : Nat × String =>
          ExtractedItem.content (mkVidbleContent req vid (.cnum e.1) e.2))
          = (fun e : Nat × String => some (CountVal.cnum e.1)) from ?_]
      · exact map_fst_enum (fun i => some (CountVal.cnum i)) 1 _
      · funext e
        simp [itemCount, mkVidbleContent]
    · simp only [vidbleAlbumItems, List.map_map]
      rw [show (itemFullName ∘ fun e : Nat × String =>
          ExtractedItem.content (mkVidbleContent req vid (.cnum e.1) e.2))
          = (fun e : Nat × String =>
              some ((if byTitle req then req.postTitle else vid) ++ natRepr e.1)) from ?_]
      · exact nodup_enum_map (vidbleLinks (soup (http req.url).text)) 1
          (fun i => some ((if byTitle req then req.postTitle else vid) ++ natRepr i))
          (fun a b hab => natRepr_inj (strAppend_left_cancel (Option.some.inj hab)))
      · funext e
        simp [itemFullName, fullName_mkVidbleContent]

def picA : Picture := ⟨"https://i.imgur.com/x1.jpg", "image/jpeg", false, ""⟩

def picB : Picture := ⟨"https://i.imgur.com/x2.png", "image/png", false, ""⟩

def clientC6 : ImgurClient :=
  ⟨some 10, fun _ => .error .valueError, fun _ => .ok [picA, picB]⟩

def reqC6 : Request :=
  ⟨"https://imgur.com/a/alb", "u", "t", "s", 0, "m", "Post Title", "p", false⟩

theorem C6_witness :
    imgurExtractAlbum reqC6 (some clientC6) st0 =
      (.ok (), { pushHostCall ("imgur get_album_images " ++ "alb") st0 with
        extractedContent := st0.extractedContent
          ++ imgurAlbumItems reqC6 "alb" 1 [picA, picB] }) ∧
    ((imgurAlbumItems reqC6 "alb" 1 [picA, picB]).map itemFullName).Nodup ∧
    (imgurAlbumItems reqC6 "alb" 1 [picA, picB]).map itemCount
      = [some (.cnum 1), some (.cnum 2)] :=
  ⟨(C6_thm.1 reqC6 clientC6 st0 "https://imgur.com/a" "alb" [picA, picB]
      (by decide) rfl (by decide)).1,
   (C6_thm.1 reqC6 clientC6 st0 "https://imgur.com/a" "alb" [picA, picB]
      (by decide) rfl (by decide)).2.2.2,
   (C6_thm.1 reqC6 clientC6 st0 "https://imgur.com/a" "alb" [picA, picB]
      (by decide) rfl (by decide)).2.2.1⟩
/-! ## Which base names can newly emitted items carry? -/

@[simp] theorem ec_pushHostCall (u : String) (st : ExtractorState) :
    (pushHostCall u st).extractedContent = st.extractedContent := rfl

theorem mem_push_content {c x : Content} {st : ExtractorState}
    (h : ExtractedItem.content c ∈ (pushItem (.content x) st).extractedContent) :
    ExtractedItem.content c ∈ st.extractedContent ∨ c = x := by
  simp only [ec_pushItem, List.mem_append, List.mem_singleton,
    ExtractedItem.content.injEq] at h
  exact h

theorem names_getJson (http : String → HttpResponse) (req : Request) (url : String)
    (st : ExtractorState) (c : Content)
    (h : ExtractedItem.content c ∈ (getJson http req url st).2.extractedContent) :
    ExtractedItem.content c ∈ st.extractedContent := by
  simp only [getJson] at h
  by_cases hB : (decide ((http url).statusCode = 200) &&
      strContains "json" (http url).contentType) = true
  · simp only [hB, if_true] at h
    simpa using h
  · have hB' : (decide ((http url).statusCode = 200) &&
        strContains "json" (http url).contentType) = false := by
      simpa using hB
    simp only [hB', Bool.false_eq_true, if_false, ec_pushItem, ec_pushLog,
      ec_pushHostCall, List.mem_append, List.mem_singleton] at h
    rcases h with h | h
    · exact h
    · exact ExtractedItem.noConfusion h

theorem names_getText (http : String → HttpResponse) (req : Request) (url : String)
    (st : ExtractorState) (c : Content)
    (h : ExtractedItem.content c ∈ (getText http req url st).2.extractedContent) :
    ExtractedItem.content c ∈ st.extractedContent := by
  simp only [getText] at h
  by_cases hB : (decide ((http url).statusCode = 200) &&
      strContains "text" (http url).contentType) = true
  · simp only [hB, if_true] at h
    simpa using h
  · have hB' : (decide ((http url).statusCode = 200) &&
        strContains "text" (http url).contentType) = false := by
      simpa using hB
    simp only [hB', Bool.false_eq_true, if_false, ec_pushItem, ec_pushLog,
      ec_pushHostCall, List.mem_append, List.mem_singleton] at h
    rcases h with h | h
    · exact h
    · exact ExtractedItem.noConfusion h

theorem names_redditUploads (req : Request) (st : ExtractorState) (c : Content)
    (h : ExtractedItem.content c ∈ (redditUploadsExtractContent req st).2.extractedContent) :
    ExtractedItem.content c ∈ st.extractedContent ∨ c.fileName = req.postTitle := by
  rcases mem_push_content h with h1 | h1
  · exact Or.inl h1
  · right
    rw [h1]

theorem names_direct (req : Request) (st : ExtractorState) (hpol : byTitle req = true)
    (c : Content)
    (h : ExtractedItem.content c ∈ (directExtractContent req st).2.extractedContent) :
    ExtractedItem.content c ∈ st.extractedContent ∨ c.fileName = req.postTitle := by
  unfold directExtractContent at h
  rcases h1 : rsplitOnce '/' req.url with _ | ⟨d, t⟩ <;> simp only [h1] at h
  · exact Or.inl h
  · rcases h2 : rsplitOnce '.' t with _ | ⟨i, e⟩ <;> simp only [h2] at h
    · exact Or.inl h
    · rcases mem_push_content h with h3 | h3
      · exact Or.inl h3
      · right
        rw [h3]
        simp [hpol]

theorem names_gfycatDirect (req : Request) (st : ExtractorState)
    (hpol : byTitle req = true) (c : Content)
    (h : ExtractedItem.content c ∈ (gfycatExtractDirectLink req st).2.extractedContent) :
    ExtractedItem.content c ∈ st.extractedContent ∨ c.fileName = req.postTitle := by
  unfold gfycatExtractDirectLink at h
  rcases h1 : rsplitOnce '/' req.url with _ | ⟨d, t⟩ <;> simp only [h1] at h
  · exact Or.inl h
  · rcases h2 : rsplitOnce '.' t with _ | ⟨i, e⟩ <;> simp only [h2] at h
    · exact Or.inl h
    · rcases mem_push_content h with h3 | h3
      · exact Or.inl h3
      · right
        rw [h3]
        simp [hpol]

theorem names_gfycatSingle (http : String → HttpResponse) (req : Request)
    (st : ExtractorState) (hpol : byTitle req = true) (c : Content)
    (h : ExtractedItem.content c ∈ (gfycatExtractSingle http req st).2.extractedContent) :
    ExtractedItem.content c ∈ st.extractedContent ∨ c.fileName = req.postTitle := by
  unfold gfycatExtractSingle at h
  rcases h1 : rsplitOnce '/' req.url with _ | ⟨d, t⟩ <;> simp only [h1] at h
  · exact Or.inl h
  · rcases h3 : pyGetOpt (getJson http req (gfycatApiCaller ++ t) st).1 "gfyItem"
        with e1 | item <;> simp only [h3] at h
    · exact Or.inl (names_getJson http req _ st c h)
    · rcases h4 : pyGetOpt item "webmUrl" with e2 | gurl <;> simp only [h4] at h
      · exact Or.inl (names_getJson http req _ st c h)
      · rcases mem_push_content h with h5 | h5
        · exact Or.inl (names_getJson http req _ st c h5)
        · right
          rw [h5]
          simp [hpol]

theorem names_gfycat (http : String → HttpResponse) (req : Request)
    (st : ExtractorState) (hpol : byTitle req = true) (c : Content)
    (h : ExtractedItem.content c ∈ (gfycatExtractContent http req st).2.extractedContent) :
    ExtractedItem.content c ∈ st.extractedContent ∨ c.fileName = req.postTitle := by
  unfold gfycatExtractContent at h
  rcases htry : gfycatTry http req st with ⟨r, st'⟩
  have hst' : ∀ c, ExtractedItem.content c ∈ st'.extractedContent →
      ExtractedItem.content c ∈ st.extractedContent ∨ c.fileName = req.postTitle := by
    intro c2 h2
    unfold gfycatTry at htry
    by_cases hend : endsWithAny gfycatExts (lowerStr req.url) = true
    · rw [if_pos hend] at htry
      have := names_gfycatDirect req st hpol c2
      rw [htry] at this
      exact this h2
    · rw [if_neg hend] at htry
      have := names_gfycatSingle http req st hpol c2
      rw [htry] at this
      exact this h2
  rw [htry] at h
  cases r
  case error e =>
    simp only [ec_pushLog, ec_pushItem, List.mem_append, List.mem_singleton] at h
    rcases h with h | h
    · exact hst' c h
    · exact ExtractedItem.noConfusion h
  case ok u => exact hst' c h
theorem names_vidbleSingleLoop (req : Request) (vid : String)
    (hpol : byTitle req = true) :
    ∀ (imgs : List Img) (st : ExtractorState) (c : Content),
      ExtractedItem.content c ∈ (vidbleSingleLoop req vid imgs st).2.extractedContent →
      ExtractedItem.content c ∈ st.extractedContent ∨ c.fileName = req.postTitle := by
  intro imgs
  induction imgs with
  | nil => intro st c h; exact Or.inl h
  | cons im rest ih =>
    intro st c h
    rw [vidbleSingleLoop] at h
    rcases him : im.classes with _ | ⟨_ | ⟨cc, cs⟩⟩ <;> simp only [him] at h
    · exact ih st c h
    · exact Or.inl h
    · by_cases hc : cc = "img2"
      · simp only [hc, if_pos rfl] at h
        rcases hsrc : im.src with _ | link <;> simp only [hsrc] at h
        · exact ih st c h
        · rcases h2 : rsplitOnce '.' link with _ | ⟨a, b⟩ <;> simp only [h2] at h
          · exact Or.inl h
          · rcases ih _ c h with h3 | h3
            · rcases mem_push_content h3 with h4 | h4
              · exact Or.inl h4
              · right
                rw [h4]
                simp [mkVidbleContent, hpol]
            · exact Or.inr h3
      · simp only [if_neg hc] at h
        exact ih st c h

theorem names_vidbleAlbumLoop (req : Request) (vid : String)
    (hpol : byTitle req = true) :
    ∀ (imgs : List Img) (count : Nat) (st : ExtractorState) (c : Content),
      ExtractedItem.content c ∈ (vidbleAlbumLoop req vid imgs count st).2.extractedContent →
      ExtractedItem.content c ∈ st.extractedContent ∨ c.fileName = req.postTitle := by
  intro imgs
  induction imgs with
  | nil => intro count st c h; exact Or.inl h
  | cons im rest ih =>
    intro count st c h
    rw [vidbleAlbumLoop] at h
    rcases him : im.classes with _ | ⟨_ | ⟨cc, cs⟩⟩ <;> simp only [him] at h
    · exact ih count st c h
    · exact Or.inl h
    · by_cases hc : cc = "img2"
      · simp only [hc, if_pos rfl] at h
        rcases hsrc : im.src with _ | link <;> simp only [hsrc] at h
        · exact ih count st c h
        · rcases h2 : rsplitOnce '.' link with _ | ⟨a, b⟩ <;> simp only [h2] at h
          · exact Or.inl h
          · rcases ih _ _ c h with h3 | h3
            · rcases mem_push_content h3 with h4 | h4
              · exact Or.inl h4
              · right
                rw [h4]
                simp [mkVidbleContent, hpol]
            · exact Or.inr h3
      · simp only [if_neg hc] at h
        exact ih count st c h

theorem names_vidbleSingle (http : String → HttpResponse) (soup : String → List Img)
    (req : Request) (st : ExtractorState) (hpol : byTitle req = true) (c : Content)
    (h : ExtractedItem.content c ∈ (vidbleExtractSingle http soup req st).2.extractedContent) :
    ExtractedItem.content c ∈ st.extractedContent ∨ c.fileName = req.postTitle := by
  unfold vidbleExtractSingle at h
  rcases h1 : rsplitOnce '/' req.url with _ | ⟨d, t⟩ <;> simp only [h1] at h
  · exact Or.inl h
  · rcases h2 : (getText http req req.url st).1 with _ | txt <;> simp only [h2] at h
    · exact Or.inl (names_getText http req _ st c h)
    · rcases names_vidbleSingleLoop req _ hpol (soup txt) _ c h with h3 | h3
      · exact Or.inl (names_getText http req _ st c h3)
      · exact Or.inr h3

theorem names_vidbleAlbum (http : String → HttpResponse) (soup : String → List Img)
    (req : Request) (st : ExtractorState) (hpol : byTitle req = true) (c : Content)
    (h : ExtractedItem.content c ∈ (vidbleExtractAlbum http soup req st).2.extractedContent) :
    ExtractedItem.content c ∈ st.extractedContent ∨ c.fileName = req.postTitle := by
  unfold vidbleExtractAlbum at h
  rcases h1 : rsplitOnce '/' req.url with _ | ⟨d, t⟩ <;> simp only [h1] at h
  · exact Or.inl h
  · rcases h2 : (getText http req req.url st).1 with _ | txt <;> simp only [h2] at h
    · exact Or.inl (names_getText http req _ st c h)
    · rcases names_vidbleAlbumLoop req _ hpol (soup txt) 1 _ c h with h3 | h3
      · exact Or.inl (names_getText http req _ st c h3)
      · exact Or.inr h3

theorem names_vidbleDirect (req : Request) (st : ExtractorState)
    (hpol : byTitle req = true) (c : Content)
    (h : ExtractedItem.content c ∈ (vidbleExtractDirectLink req st).2.extractedContent) :
    ExtractedItem.content c ∈ st.extractedContent ∨ c.fileName = req.postTitle := by
  unfold vidbleExtractDirectLink at h
  rcases h1 : rsplitOnce '/' req.url with _ | ⟨d, t⟩ <;> simp only [h1] at h
  · exact Or.inl h
  · rcases h2 : rsplitOnce '.' t with _ | ⟨i, e⟩ <;> simp only [h2] at h
    · exact Or.inl h
    · rcases mem_push_content h with h3 | h3
      · exact Or.inl h3
      · right
        rw [h3]
        simp [hpol]

theorem names_vidble (http : String → HttpResponse) (soup : String → List Img)
    (req : Request) (st : ExtractorState) (hpol : byTitle req = true) (c : Content)
    (h : ExtractedItem.content c ∈ (vidbleExtractContent http soup req st).2.extractedContent) :
    ExtractedItem.content c ∈ st.extractedContent ∨ c.fileName = req.postTitle := by
  unfold vidbleExtractContent at h
  rcases htry : vidbleTry http soup req st with ⟨r, st'⟩
  have hst' : ∀ c2, ExtractedItem.content c2 ∈ st'.extractedContent →
      ExtractedItem.content c2 ∈ st.extractedContent ∨ c2.fileName = req.postTitle := by
    intro c2 h2
    unfold vidbleTry at htry
    by_cases hA : (strContains "/show/" req.url || strContains "/explore/" req.url) = true
    · rw [if_pos hA] at htry
      have := names_vidbleSingle http soup req st hpol c2
      rw [htry] at this
      exact this h2
    · rw [if_neg hA] at htry
      by_cases hB : strContains "/album/" req.url = true
      · rw [if_pos hB] at htry
        have := names_vidbleAlbum http soup req st hpol c2
        rw [htry] at this
        exact this h2
      · rw [if_neg hB] at htry
        by_cases hC : endsWithAny vidbleClassifyExts (lowerStr req.url) = true
        · rw [if_pos hC] at htry
          have := names_vidbleDirect req st hpol c2
          rw [htry] at this
          exact this h2
        · rw [if_neg hC] at htry
          have := names_vidbleAlbum http soup req st hpol c2
          rw [htry] at this
          exact this h2
  rw [htry] at h
  cases r
  case error e =>
    simp only [ec_pushLog, ec_pushItem, List.mem_append, List.mem_singleton] at h
    rcases h with h | h
    · exact hst' c h
    · exact ExtractedItem.noConfusion h
  case ok u => exact hst' c h
theorem names_imgurDirectLink (req : Request) (client : Option ImgurClient)
    (st : ExtractorState) (hpol : byTitle req = true) (c : Content)
    (h : ExtractedItem.content c ∈ (imgurExtractDirectLink req client st).2.extractedContent) :
    ExtractedItem.content c ∈ st.extractedContent ∨ c.fileName = req.postTitle := by
  unfold imgurExtractDirectLink at h
  rcases h1 : imgurTruncUrl req.url with _ | url <;> simp only [h1] at h
  · exact Or.inl (by simpa using h)
  · rcases h2 : rsplitOnce '/' url with _ | ⟨d, t⟩ <;> simp only [h2] at h
    · exact Or.inl h
    · rcases h3 : rsplitOnce '.' t with _ | ⟨i, e⟩ <;> simp only [h3] at h
      · exact Or.inl h
      · by_cases h4 : endsGif url = true
        · rw [if_pos h4] at h
          rcases client with _ | c2
          · exact Or.inl h
          · simp only [clientGetImage] at h
            rcases h5 : c2.getImage i with e2 | pic <;> simp only [h5] at h
            · exact Or.inl (by simpa using h)
            · by_cases h6 : (decide (pic.type = "image/gif") && pic.animated) = true
              · rw [if_pos h6] at h
                rcases mem_push_content h with h7 | h7
                · exact Or.inl (by simpa using h7)
                · right
                  rw [h7]
                  simp [hpol]
              · rw [if_neg h6] at h
                rcases mem_push_content h with h7 | h7
                · exact Or.inl (by simpa using h7)
                · right
                  rw [h7]
                  simp [hpol]
        · rw [if_neg h4] at h
          rcases mem_push_content h with h7 | h7
          · exact Or.inl h7
          · right
            rw [h7]
            simp [hpol]

theorem names_imgurMislinked (req : Request) (client : Option ImgurClient)
    (st : ExtractorState) (hpol : byTitle req = true) (c : Content)
    (h : ExtractedItem.content c ∈
      (imgurExtractDirectMislinked req client st).2.extractedContent) :
    ExtractedItem.content c ∈ st.extractedContent ∨ c.fileName = req.postTitle := by
  unfold imgurExtractDirectMislinked at h
  rcases h1 : imgurTruncUrl req.url with _ | url <;> simp only [h1] at h
  · exact Or.inl (by simpa using h)
  · rcases h2 : rsplitOnce '/' url with _ | ⟨d, t⟩ <;> simp only [h2] at h
    · exact Or.inl h
    · rcases h3 : rsplitOnce '.' t with _ | ⟨i, e⟩ <;> simp only [h3] at h
      · exact Or.inl h
      · by_cases h4 : endsGif ("https://i.imgur.com/" ++ t) = true
        · rw [if_pos h4] at h
          rcases client with _ | c2
          · exact Or.inl h
          · simp only [clientGetImage] at h
            rcases h5 : c2.getImage i with e2 | pic <;> simp only [h5] at h
            · exact Or.inl (by simpa using h)
            · by_cases h6 : (decide (pic.type = "image/gif") && pic.animated) = true
              · rw [if_pos h6] at h
                rcases mem_push_content h with h7 | h7
                · exact Or.inl (by simpa using h7)
                · right
                  rw [h7]
                  simp [hpol]
              · rw [if_neg h6] at h
                rcases mem_push_content h with h7 | h7
                · exact Or.inl (by simpa using h7)
                · right
                  rw [h7]
                  simp [hpol]
        · rw [if_neg h4] at h
          rcases mem_push_content h with h7 | h7
          · exact Or.inl h7
          · right
            rw [h7]
            simp [hpol]

theorem names_imgurSingle (req : Request) (client : Option ImgurClient)
    (st : ExtractorState) (hpol : byTitle req = true) (c : Content)
    (h : ExtractedItem.content c ∈ (imgurExtractSingle req client st).2.extractedContent) :
    ExtractedItem.content c ∈ st.extractedContent ∨ c.fileName = req.postTitle := by
  unfold imgurExtractSingle at h
  rcases h1 : rsplitOnce '/' req.url with _ | ⟨d, t⟩ <;> simp only [h1] at h
  · exact Or.inl h
  · rcases client with _ | c2
    · exact Or.inl h
    · simp only [clientGetImage] at h
      rcases h5 : c2.getImage t with e2 | pic <;> simp only [h5] at h
      · exact Or.inl (by simpa using h)
      · rcases h3 : rsplitOnce '.' pic.link with _ | ⟨a, b⟩ <;> simp only [h3] at h
        · exact Or.inl (by simpa using h)
        · by_cases h6 : (decide (pic.type = "image/gif") && pic.animated) = true
          · rw [if_pos h6] at h
            rcases mem_push_content h with h7 | h7
            · exact Or.inl (by simpa using h7)
            · right
              rw [h7]
              simp [hpol]
          · rw [if_neg h6] at h
            rcases mem_push_content h with h7 | h7
            · exact Or.inl (by simpa using h7)
            · right
              rw [h7]
              simp [hpol]

theorem names_imgurAlbumLoop (req : Request) (albumId : String)
    (hpol : byTitle req = true) :
    ∀ (pics : List Picture) (count : Nat) (st : ExtractorState) (c : Content),
      ExtractedItem.content c ∈ (imgurAlbumLoop req albumId pics count st).2.extractedContent →
      ExtractedItem.content c ∈ st.extractedContent ∨ c.fileName = req.postTitle ++ " " := by
  intro pics
  induction pics with
  | nil => intro count st c h; exact Or.inl h
  | cons pic rest ih =>
    intro count st c h
    rw [imgurAlbumLoop] at h
    rcases h2 : rsplitOnce '.' pic.link with _ | ⟨a, b⟩ <;> simp only [h2] at h
    · exact Or.inl h
    · rcases ih _ _ c h with h3 | h3
      · rcases mem_push_content h3 with h4 | h4
        · exact Or.inl h4
        · right
          rw [h4, fileName_mkImgurAlbumContent]
          simp [hpol]
      · exact Or.inr h3

theorem names_imgurAlbum (req : Request) (client : Option ImgurClient)
    (st : ExtractorState) (hpol : byTitle req = true) (c : Content)
    (h : ExtractedItem.content c ∈ (imgurExtractAlbum req client st).2.extractedContent) :
    ExtractedItem.content c ∈ st.extractedContent ∨ c.fileName = req.postTitle ++ " " := by
  unfold imgurExtractAlbum at h
  rcases h1 : rsplitOnce '/' req.url with _ | ⟨d, t⟩ <;> simp only [h1] at h
  · exact Or.inl h
  · rcases client with _ | c2
    · exact Or.inl h
    · simp only [clientGetAlbumImages] at h
      rcases h5 : c2.getAlbumImages t with e2 | pics <;> simp only [h5] at h
      · exact Or.inl (by simpa using h)
      · rcases names_imgurAlbumLoop req t hpol pics 1 _ c h with h3 | h3
        · exact Or.inl (by simpa using h3)
        · exact Or.inr h3

theorem names_imgurTry (req : Request) (client : Option ImgurClient)
    (st : ExtractorState) (hpol : byTitle req = true) (c : Content)
    (h : ExtractedItem.content c ∈ (imgurExtractTry req client st).2.extractedContent) :
    ExtractedItem.content c ∈ st.extractedContent ∨ c.fileName = req.postTitle ∨
      c.fileName = req.postTitle ++ " " := by
  unfold imgurExtractTry at h
  split at h
  · rcases names_imgurDirectLink req client st hpol c h with h3 | h3
    · exact Or.inl h3
    · exact Or.inr (Or.inl h3)
  · rcases names_imgurAlbum req client st hpol c h with h3 | h3
    · exact Or.inl h3
    · exact Or.inr (Or.inr h3)
  · split at h <;>
      (rename_i heq
       have halb2 := names_imgurAlbum req client st hpol c
       rw [heq] at halb2
       rcases halb2 h with h3 | h3
       · exact Or.inl h3
       · exact Or.inr (Or.inr h3))
  · rcases names_imgurMislinked req client st hpol c h with h3 | h3
    · exact Or.inl h3
    · exact Or.inr (Or.inl h3)
  · rcases names_imgurSingle req client st hpol c h with h3 | h3
    · exact Or.inl h3
    · exact Or.inr (Or.inl h3)

theorem names_imgurExtract (req : Request) (client : Option ImgurClient)
    (st : ExtractorState) (hpol : byTitle req = true) (c : Content)
    (h : ExtractedItem.content c ∈ (imgurExtractContent req client st).2.extractedContent) :
    ExtractedItem.content c ∈ st.extractedContent ∨ c.fileName = req.postTitle ∨
      c.fileName = req.postTitle ++ " " := by
  unfold imgurExtractContent at h
  split at h <;>
    (rename_i heq
     have htry2 := names_imgurTry req client st hpol c
     rw [heq] at htry2)
  · exact htry2 h
  · rename_i e st' heq2
    rw [ec_imgurHandleExc] at h
    exact htry2 h
theorem names_imgurExtract_album (req : Request) (client : Option ImgurClient)
    (st : ExtractorState) (hpol : byTitle req = true)
    (hcls : imgurClassify req.url = .album) (c : Content)
    (h : ExtractedItem.content c ∈ (imgurExtractContent req client st).2.extractedContent) :
    ExtractedItem.content c ∈ st.extractedContent ∨ c.fileName = req.postTitle ++ " " := by
  unfold imgurExtractContent at h
  split at h <;>
    (rename_i heq
     unfold imgurExtractTry at heq
     simp only [hcls] at heq
     have halb2 := names_imgurAlbum req client st hpol c
     rw [heq] at halb2)
  · exact halb2 h
  · rw [ec_imgurHandleExc] at h
    exact halb2 h

/-- Lifting a bound on the try-block's emissions through `extract_content`'s
exception chain (the handlers never touch `extracted_content`). -/
theorem names_imgurExtract_of_try (req : Request) (client : Option ImgurClient)
    (st : ExtractorState) (P : Content → Prop)
    (htry : ∀ c : Content,
      ExtractedItem.content c ∈ (imgurExtractTry req client st).2.extractedContent →
      ExtractedItem.content c ∈ st.extractedContent ∨ P c)
    (c : Content)
    (h : ExtractedItem.content c ∈ (imgurExtractContent req client st).2.extractedContent) :
    ExtractedItem.content c ∈ st.extractedContent ∨ P c := by
  unfold imgurExtractContent at h
  split at h <;>
    (rename_i heq
     have h2 := htry c
     rw [heq] at h2)
  · exact h2 h
  · rw [ec_imgurHandleExc] at h
    exact h2 h

theorem names_imgurTry_direct (req : Request) (client : Option ImgurClient)
    (st : ExtractorState) (hpol : byTitle req = true)
    (hcls : imgurClassify req.url = .direct) (c : Content)
    (h : ExtractedItem.content c ∈ (imgurExtractTry req client st).2.extractedContent) :
    ExtractedItem.content c ∈ st.extractedContent ∨ c.fileName = req.postTitle := by
  unfold imgurExtractTry at h
  simp only [hcls] at h
  exact names_imgurDirectLink req client st hpol c h

theorem names_imgurTry_mislinked (req : Request) (client : Option ImgurClient)
    (st : ExtractorState) (hpol : byTitle req = true)
    (hcls : imgurClassify req.url = .mislinked) (c : Content)
    (h : ExtractedItem.content c ∈ (imgurExtractTry req client st).2.extractedContent) :
    ExtractedItem.content c ∈ st.extractedContent ∨ c.fileName = req.postTitle := by
  unfold imgurExtractTry at h
  simp only [hcls] at h
  exact names_imgurMislinked req client st hpol c h

theorem names_imgurTry_single (req : Request) (client : Option ImgurClient)
    (st : ExtractorState) (hpol : byTitle req = true)
    (hcls : imgurClassify req.url = .single) (c : Content)
    (h : ExtractedItem.content c ∈ (imgurExtractTry req client st).2.extractedContent) :
    ExtractedItem.content c ∈ st.extractedContent ∨ c.fileName = req.postTitle := by
  unfold imgurExtractTry at h
  simp only [hcls] at h
  exact names_imgurSingle req client st hpol c h

theorem names_imgurTry_gallery (req : Request) (client : Option ImgurClient)
    (st : ExtractorState) (hpol : byTitle req = true)
    (hcls : imgurClassify req.url = .galleryTry) (c : Content)
    (h : ExtractedItem.content c ∈ (imgurExtractTry req client st).2.extractedContent) :
    ExtractedItem.content c ∈ st.extractedContent ∨ c.fileName = req.postTitle ++ " " := by
  unfold imgurExtractTry at h
  simp only [hcls] at h
  rcases halb : imgurExtractAlbum req client st with ⟨r, st2⟩
  simp only [halb] at h
  have halb2 := names_imgurAlbum req client st hpol c
  rw [halb] at halb2
  cases r <;> exact halb2 h

/-! ## Claim C7 -/

/-- Claim C7 (amended): under the "by post title" naming policy every item
emitted on every path of every variant carries exactly the post title as its
base file name — except items produced by the Imgur album extraction
(reached from both the album and the gallery classifications), which carry
the post title with one trailing space appended (the space acting as the
separator before the ordinal).  The per-classification conjuncts pin the
exact name on every Imgur path: direct, mislinked and single emit exactly
the title; album and gallery emit exactly the title plus the space. -/
theorem C7_thm (req : Request) (hpol : byTitle req = true) :
    (∀ (st : ExtractorState) (c : Content),
      ExtractedItem.content c ∈ (redditUploadsExtractContent req st).2.extractedContent →
      ExtractedItem.content c ∈ st.extractedContent ∨ c.fileName = req.postTitle) ∧
    (∀ (st : ExtractorState) (c : Content),
      ExtractedItem.content c ∈ (directExtractContent req st).2.extractedContent →
      ExtractedItem.content c ∈ st.extractedContent ∨ c.fileName = req.postTitle) ∧
    (∀ (http : String → HttpResponse) (st : ExtractorState) (c : Content),
      ExtractedItem.content c ∈ (gfycatExtractContent http req st).2.extractedContent →
      ExtractedItem.content c ∈ st.extractedContent ∨ c.fileName = req.postTitle) ∧
    (∀ (http : String → HttpResponse) (soup : String → List Img) (st : ExtractorState)
        (c : Content),
      ExtractedItem.content c ∈ (vidbleExtractContent http soup req st).2.extractedContent →
      ExtractedItem.content c ∈ st.extractedContent ∨ c.fileName = req.postTitle) ∧
    (∀ (client : Option ImgurClient) (st : ExtractorState) (c : Content),
      ExtractedItem.content c ∈ (imgurExtractContent req client st).2.extractedContent →
      ExtractedItem.content c ∈ st.extractedContent ∨ c.fileName = req.postTitle ∨
        c.fileName = req.postTitle ++ " ") ∧
    (∀ (client : Option ImgurClient) (st : ExtractorState) (c : Content),
      imgurClassify req.url = .album →
      ExtractedItem.content c ∈ (imgurExtractContent req client st).2.extractedContent →
      ExtractedItem.content c ∈ st.extractedContent ∨ c.fileName = req.postTitle ++ " ") ∧
    (∀ (client : Option ImgurClient) (st : ExtractorState) (c : Content),
      imgurClassify req.url = .galleryTry →
      ExtractedItem.content c ∈ (imgurExtractContent req client st).2.extractedContent →
      ExtractedItem.content c ∈ st.extractedContent ∨ c.fileName = req.postTitle ++ " ") ∧
    (∀ (client : Option ImgurClient) (st : ExtractorState) (c : Content),
      imgurClassify req.url = .direct →
      ExtractedItem.content c ∈ (imgurExtractContent req client st).2.extractedContent →
      ExtractedItem.content c ∈ st.extractedContent ∨ c.fileName = req.postTitle) ∧
    (∀ (client : Option ImgurClient) (st : ExtractorState) (c : Content),
      imgurClassify req.url = .mislinked →
      ExtractedItem.content c ∈ (imgurExtractContent req client st).2.extractedContent →
      ExtractedItem.content c ∈ st.extractedContent ∨ c.fileName = req.postTitle) ∧
    (∀ (client : Option ImgurClient) (st : ExtractorState) (c : Content),
      imgurClassify req.url = .single →
      ExtractedItem.content c ∈ (imgurExtractContent req client st).2.extractedContent →
      ExtractedItem.content c ∈ st.extractedContent ∨ c.fileName = req.postTitle) :=
  ⟨fun st c h => names_redditUploads req st c h,
   fun st c h => names_direct req st hpol c h,
   fun http st c h => names_gfycat http req st hpol c h,
   fun http soup st c h => names_vidble http soup req st hpol c h,
   fun client st c h => names_imgurExtract req client st hpol c h,
   fun client st c hcls h => names_imgurExtract_album req client st hpol hcls c h,
   fun client st c hcls h => names_imgurExtract_of_try req client st
     (fun c2 => c2.fileName = req.postTitle ++ " ")
     (fun c2 h2 => names_imgurTry_gallery req client st hpol hcls c2 h2) c h,
   fun client st c hcls h => names_imgurExtract_of_try req client st
     (fun c2 => c2.fileName = req.postTitle)
     (fun c2 h2 => names_imgurTry_direct req client st hpol hcls c2 h2) c h,
   fun client st c hcls h => names_imgurExtract_of_try req client st
     (fun c2 => c2.fileName = req.postTitle)
     (fun c2 h2 => names_imgurTry_mislinked req client st hpol hcls c2 h2) c h,
   fun client st c hcls h => names_imgurExtract_of_try req client st
     (fun c2 => c2.fileName = req.postTitle)
     (fun c2 h2 => names_imgurTry_single req client st hpol hcls c2 h2) c h⟩

def clientC7 : ImgurClient :=
  ⟨some 10, fun _ => .error .valueError, fun _ => .ok [picA]⟩

/-- Claim C7 (counterexample): on the Imgur album path with the "by post
title" policy, the emitted item's stored base file name is the post title
plus a trailing space, not the post title itself. -/
theorem C7_counterexample :
    byTitle reqC6 = true ∧
    (imgurExtractContent reqC6 (some clientC7) st0).2.extractedContent.map itemBaseName
      = [some "t "] ∧
    reqC6.postTitle = "t" ∧
    ("t " : String) ≠ "t" :=
  ⟨rfl, rfl, rfl, by decide⟩

def cW7 : Content :=
  ⟨.pstr ("http://x/y" ++ ".jpg"), "user", "title", "sub", "title", .cstr "", ".jpg",
    "p", "m", 0, false⟩

theorem C7_witness : cW7.fileName = reqC4.postTitle :=
  ((C7_thm reqC4 (by decide)).1 st0 cW7
      (show ExtractedItem.content cW7 ∈ [ExtractedItem.content cW7] from
        List.mem_singleton.mpr rfl)).resolve_left
    (List.not_mem_nil _)
/-! ## Claim C1 -/

/-- Claim C1 (amended): no variant's `extract_content` ever propagates an
exception except `DirectExtractor` (which raises a `ValueError` when the
URL's tail after the last `/` has no dot); every caught failure is recorded
as a failure message (plus, where applicable, a retry record), except two
silent Imgur cases — the gallery path swallows album failures without
recording anything, and an `ImgurClientError` whose status is outside
{403, 429, 500, 404} records nothing. -/
theorem C1_thm :
    (∀ (req : Request) (client : Option ImgurClient) (st : ExtractorState),
      (imgurExtractContent req client st).1 = Except.ok ()) ∧
    (∀ (http : String → HttpResponse) (req : Request) (st : ExtractorState),
      (gfycatExtractContent http req st).1 = Except.ok ()) ∧
    (∀ (http : String → HttpResponse) (soup : String → List Img) (req : Request)
        (st : ExtractorState),
      (vidbleExtractContent http soup req st).1 = Except.ok ()) ∧
    (∀ (req : Request) (st : ExtractorState),
      (redditUploadsExtractContent req st).1 = Except.ok ()) ∧
    (∀ (http : String → HttpResponse) (req : Request) (st : ExtractorState)
        (e : PyExc) (st' : ExtractorState),
      gfycatTry http req st = (.error e, st') →
      (gfycatExtractContent http req st).2.extractedContent
        = st'.extractedContent ++ [.message (genericLocateMsg req)]) ∧
    (∀ (http : String → HttpResponse) (soup : String → List Img) (req : Request)
        (st : ExtractorState) (e : PyExc) (st' : ExtractorState),
      vidbleTry http soup req st = (.error e, st') →
      (vidbleExtractContent http soup req st).2.extractedContent
        = st'.extractedContent ++ [.message (genericLocateMsg req)]) ∧
    (∀ (req : Request) (client : Option ImgurClient) (st : ExtractorState)
        (e : PyExc) (st' : ExtractorState),
      imgurExtractTry req client st = (.error e, st') →
      ((∀ s, e ≠ .imgurClientError s) →
        (imgurExtractContent req client st).2.failedExtractMessages.length
          = st'.failedExtractMessages.length + 1) ∧
      (∀ s, e = .imgurClientError s → (s = 403 ∨ s = 429 ∨ s = 500 ∨ s = 404) →
        (imgurExtractContent req client st).2.failedExtractMessages.length
          = st'.failedExtractMessages.length + 1) ∧
      (∀ s, e = .imgurClientError s → s ≠ 403 → s ≠ 429 → s ≠ 500 → s ≠ 404 →
        (imgurExtractContent req client st).2 = st')) ∧
    (∀ (req : Request) (st : ExtractorState) (d t : String),
      rsplitOnce '/' req.url = some (d, t) → strContains "." t = false →
      (directExtractContent req st).1 = Except.error PyExc.valueError) := by
  refine ⟨imgurExtract_total, gfycatExtract_total, vidbleExtract_total,
    redditUploadsExtract_total, ?_, ?_, ?_, ?_⟩
  · intro http req st e st' htry
    unfold gfycatExtractContent
    rw [htry]
    simp
  · intro http soup req st e st' htry
    unfold vidbleExtractContent
    rw [htry]
    simp
  · intro req client st e st' htry
    have hres : imgurExtractContent req client st = imgurHandleExc req client e st' := by
      unfold imgurExtractContent
      rw [htry]
    refine ⟨fun hne => ?_, fun s hs hlist => ?_, fun s hs h1 h2 h3 h4 => ?_⟩
    · rw [hres]
      cases e
      case imgurClientError s => exact absurd rfl (hne s)
      all_goals simp [imgurHandleExc, rateLimitExceededError, failedToLocateError]
    · subst hs
      rw [hres]
      rcases client with _ | c2
      · exact absurd (congrArg Prod.fst htry) (imgurTry_none_ne req st s)
      · exact imgurHandleExc_listed_len req c2 st' s hlist
    · subst hs
      rw [hres]
      rcases client with _ | c2
      · exact absurd (congrArg Prod.fst htry) (imgurTry_none_ne req st s)
      · rw [imgurHandleExc_unlisted req c2 st' s h1 h2 h3 h4]
  · intro req st d t hsplit hdot
    unfold directExtractContent
    simp only [hsplit, rsplitOnce_eq_none '.' t hdot]

def reqC1 : Request :=
  ⟨"https://imgur.com/gallery/abc", "u", "t", "s", 0, "m", "Post Title", "p", false⟩

def clientC1 : ImgurClient :=
  ⟨some 10, fun _ => .error (.imgurClientError 404),
    fun _ => .error (.imgurClientError 404)⟩

/-- Claim C1 (counterexample): on a gallery URL whose album fetch raises a
404 client error, `extract_content` returns normally but records nothing at
all — no failure message, no retry record — so not every caught failure is
recorded. -/
theorem C1_counterexample :
    clientC1.getAlbumImages "abc" = .error (.imgurClientError 404) ∧
    imgurClassify reqC1.url = .galleryTry ∧
    (imgurExtractContent reqC1 (some clientC1) st0).1 = .ok () ∧
    (imgurExtractContent reqC1 (some clientC1) st0).2.failedExtractMessages = [] ∧
    (imgurExtractContent reqC1 (some clientC1) st0).2.extractedContent = [] ∧
    (imgurExtractContent reqC1 (some clientC1) st0).2.failedExtractsToSave = [] :=
  ⟨rfl, rfl, rfl, rfl, rfl, rfl⟩

def reqD : Request := ⟨"http://x/abc", "u", "t", "s", 0, "m", "Post Title", "p", false⟩

theorem C1_witness :
    (gfycatExtractContent httpW reqG8 st0).1 = Except.ok () ∧
    (imgurExtractContent reqC2 (some clientC2) st0).1 = Except.ok () ∧
    (directExtractContent reqD st0).1 = Except.error PyExc.valueError :=
  ⟨C1_thm.2.1 httpW reqG8 st0,
   C1_thm.1 reqC2 (some clientC2) st0,
   C1_thm.2.2.2.2.2.2.2 reqD st0 "http://x" "abc" (by decide) (by decide)⟩
